import Mathlib

/-!
Verification development for the AWS Config snapshot topology resolver
(`aws_config_parser.py`).

The development has two layers:

* a JSON-value layer (`JVal`) used to model the record normalizer
  (`AWSConfigParser.__init__` per-item normalization, `_to_camel`,
  `_normalize_keys`, tag collapsing) together with a model of Python's
  `json.loads` restricted to the JSON fragment exercised here;
* a typed layer (`Item`, `Config`, ...) used to model the relationship
  resolver and tier classifier (`_build_subnet_tier_map`,
  `_build_subnet_vpc_map`, `_get_primary_vpc_id`, `_build_rds_vpc_map`,
  `get_subnets_for_vpc`, `get_sg_connections`).  The typed layer covers
  snapshots whose `configuration` payloads are mappings; each field of
  `Config` is exactly one key read by the Python code, with the Python
  `dict.get` default as the Lean default value, and `Option` where the
  code distinguishes key presence (dual-key `get` fallbacks).

Python strings are modeled as Lean `String`s; `str.isupper`/`str.lower`
are modeled on the ASCII letters (the data handled by the program is
ASCII).  Python `dict`s are modeled as association lists with
insert-or-update-in-place semantics (`dinsert`), preserving insertion
order exactly as CPython does.
-/

/-- ASCII uppercase/lowercase letter pairs, the domain on which the model
of Python's `str.isupper` / `str.lower` acts. -/
def upLow : List (Char × Char) :=
  [('A', 'a'), ('B', 'b'), ('C', 'c'), ('D', 'd'), ('E', 'e'), ('F', 'f'),
   ('G', 'g'), ('H', 'h'), ('I', 'i'), ('J', 'j'), ('K', 'k'), ('L', 'l'),
   ('M', 'm'), ('N', 'n'), ('O', 'o'), ('P', 'p'), ('Q', 'q'), ('R', 'r'),
   ('S', 's'), ('T', 't'), ('U', 'u'), ('V', 'v'), ('W', 'w'), ('X', 'x'),
   ('Y', 'y'), ('Z', 'z')]

/-- Model of Python `c.isupper()` for one character (ASCII). -/
def isUp (c : Char) : Bool :=
  (upLow.find? (fun p => p.1 == c)).isSome

/-- Model of Python `c.lower()` for one character (ASCII). -/
def toLow (c : Char) : Char :=
  match upLow.find? (fun p => p.1 == c) with
  | some p => p.2
  | none => c

/-- Model of Python `s.lower()` (ASCII). -/
def strLower (s : String) : String :=
  String.mk (s.data.map toLow)

/-- The index `i` computed by the `while` loop of `AWSConfigParser._to_camel`
(`while i < len(key) - 1 and key[i].isupper() and key[i + 1].isupper()`). -/
def camelIdx : List Char → Nat
  | c1 :: c2 :: rest => if isUp c1 && isUp c2 then camelIdx (c2 :: rest) + 1 else 0
  | _ => 0

/-- `AWSConfigParser._to_camel` on the character list of the key. -/
def toCamelL (l : List Char) : List Char :=
  match l with
  | [] => l
  | c :: rest =>
    if !isUp c then l
    else
      let i := camelIdx l
      if i = 0 then toLow c :: rest
      else (l.take i).map toLow ++ l.drop i

/-- `AWSConfigParser._to_camel`: convert a PascalCase / mixed key to its
normalized form. -/
def toCamel (key : String) : String :=
  String.mk (toCamelL key.data)

theorem isUp_toLow (c : Char) : isUp (toLow c) = false := by
  unfold toLow
  cases h : upLow.find? (fun p => p.1 == c) with
  | none => unfold isUp; rw [h]; rfl
  | some p =>
    have hmem : p ∈ upLow := List.mem_of_find?_eq_some h
    have hall : ∀ q ∈ upLow, (upLow.find? (fun r => r.1 == q.2)).isSome = false := by decide
    unfold isUp
    exact hall p hmem

theorem toCamelL_cons (c : Char) (rest : List Char) :
    toCamelL (c :: rest) =
      if !isUp c then c :: rest
      else if camelIdx (c :: rest) = 0 then toLow c :: rest
      else ((c :: rest).take (camelIdx (c :: rest))).map toLow ++
           (c :: rest).drop (camelIdx (c :: rest)) := rfl

theorem toCamelL_idem (l : List Char) : toCamelL (toCamelL l) = toCamelL l := by
  match l with
  | [] => rfl
  | c :: rest =>
    by_cases hc : isUp c = true
    · rw [toCamelL_cons c rest, hc]
      simp only [Bool.not_true, Bool.false_eq_true, if_false]
      by_cases hi : camelIdx (c :: rest) = 0
      · rw [if_pos hi, toCamelL_cons (toLow c) rest, isUp_toLow c]
        rfl
      · rw [if_neg hi]
        obtain ⟨j, hj⟩ : ∃ j, camelIdx (c :: rest) = j + 1 :=
          ⟨camelIdx (c :: rest) - 1, by omega⟩
        rw [hj, List.take_succ_cons, List.map_cons, List.cons_append,
          toCamelL_cons, isUp_toLow c]
        rfl
    · have hc' : isUp c = false := by simpa using hc
      rw [toCamelL_cons c rest, hc']
      simp only [Bool.not_false, if_true]
      rw [toCamelL_cons c rest, hc']
      simp only [Bool.not_false, if_true]

theorem toCamel_idem (key : String) : toCamel (toCamel key) = toCamel key := by
  unfold toCamel
  rw [show (String.mk (toCamelL key.data)).data = toCamelL key.data from rfl,
    toCamelL_idem]

/-! ## JSON values (model of the Python objects produced by `json.load`) -/

mutual

inductive JVal where
  | null
  | bool (b : Bool)
  | num (n : Int)
  | fnum (raw : String)
  | str (s : String)
  | arr (xs : JList)
  | obj (fs : JFields)

inductive JList where
  | nil
  | cons (v : JVal) (tl : JList)

inductive JFields where
  | nil
  | cons (k : String) (v : JVal) (tl : JFields)

end

/-- First binding of `key` in a field list (Python dict lookup; dicts built
by the model keep keys unique). -/
def fGet? : JFields → String → Option JVal
  | .nil, _ => none
  | .cons k v tl, key => if k == key then some v else fGet? tl key

/-- Python `d.get(key, default)`. -/
def fGetD (fs : JFields) (key : String) (d : JVal) : JVal :=
  (fGet? fs key).getD d

/-- Python `d[key] = v`: replace the value at the key's existing position,
else append the binding (CPython insertion-order semantics). -/
def fInsert : JFields → String → JVal → JFields
  | .nil, k, v => .cons k v .nil
  | .cons k' v' tl, k, v =>
    if k' == k then .cons k' v tl else .cons k' v' (fInsert tl k v)

/-- Build a Python dict from a binding sequence: `d = {}` then `d[k] = v`
for each pair in order (later duplicates overwrite in place). -/
def buildDictGo : JFields → JFields → JFields
  | acc, .nil => acc
  | acc, .cons k v tl => buildDictGo (fInsert acc k v) tl

/-- Dict built from a binding sequence (used by dict comprehensions and by
JSON object decoding, both of which have this semantics in CPython). -/
def buildDict (fs : JFields) : JFields := buildDictGo .nil fs

mutual

/-- `AWSConfigParser._normalize_keys` on one value. -/
def normKeysV : JVal → JVal
  | .obj fs => .obj (buildDict (normKeysF fs))
  | .arr xs => .arr (normKeysL xs)
  | v => v

/-- `AWSConfigParser._normalize_keys` mapped over a list. -/
def normKeysL : JList → JList
  | .nil => .nil
  | .cons v tl => .cons (normKeysV v) (normKeysL tl)

/-- The binding sequence `(to_camel k, normalize_keys v)` of the dict
comprehension inside `AWSConfigParser._normalize_keys`. -/
def normKeysF : JFields → JFields
  | .nil => .nil
  | .cons k v tl => .cons (toCamel k) (normKeysV v) (normKeysF tl)

end

/-- Python truthiness of a JSON value (`if k:`). -/
def jTruthy : JVal → Bool
  | .null => false
  | .bool b => b
  | .num n => n != 0
  | .fnum _ => true
  | .str s => s != ""
  | .arr .nil => false
  | .arr _ => true
  | .obj .nil => false
  | .obj _ => true

mutual

/-- Injective-enough print of a `JVal`, used only to separate distinct
values in proofs. -/
def serV : JVal → String
  | .null => "N"
  | .bool b => if b then "T" else "F"
  | .num n => "n:" ++ toString n
  | .fnum r => "f:" ++ r
  | .str s => "s:" ++ s
  | .arr xs => "[" ++ serL xs ++ "]"
  | .obj fs => "(" ++ serF fs ++ ")"

def serL : JList → String
  | .nil => ""
  | .cons v tl => serV v ++ ";" ++ serL tl

def serF : JFields → String
  | .nil => ""
  | .cons k v tl => k ++ "=" ++ serV v ++ ";" ++ serF tl

end

/-! ## Model of `json.loads` on the JSON fragment exercised by the parser

Covers null / booleans / integers / floats (kept as their lexeme) /
`NaN` / `Infinity` / strings with the standard escapes / arrays / objects,
with ASCII whitespace.  Surrogate-pair escapes and some malformed-number
corner cases are outside the model. -/

def isWsC (c : Char) : Bool :=
  c == ' ' || c == '\t' || c == '\n' || c == '\r'

def skipWs : List Char → List Char
  | [] => []
  | c :: t => if isWsC c then skipWs t else c :: t

def isDigitC (c : Char) : Bool := '0' ≤ c && c ≤ '9'

def natOfDigits (l : List Char) : Nat :=
  l.foldl (fun a c => a * 10 + (c.toNat - 48)) 0

def hexVal (c : Char) : Option Nat :=
  if '0' ≤ c && c ≤ '9' then some (c.toNat - 48)
  else if 'a' ≤ c && c ≤ 'f' then some (c.toNat - 87)
  else if 'A' ≤ c && c ≤ 'F' then some (c.toNat - 55)
  else none

/-- Lex a JSON string body (after the opening quote): returns the decoded
characters and the input after the closing quote. -/
def lexStr : List Char → Option (List Char × List Char)
  | [] => none
  | '"' :: t => some ([], t)
  | '\\' :: t =>
    match t with
    | '"' :: u => (lexStr u).map (fun p => ('"' :: p.1, p.2))
    | '\\' :: u => (lexStr u).map (fun p => ('\\' :: p.1, p.2))
    | '/' :: u => (lexStr u).map (fun p => ('/' :: p.1, p.2))
    | 'n' :: u => (lexStr u).map (fun p => ('\n' :: p.1, p.2))
    | 't' :: u => (lexStr u).map (fun p => ('\t' :: p.1, p.2))
    | 'r' :: u => (lexStr u).map (fun p => ('\r' :: p.1, p.2))
    | 'b' :: u => (lexStr u).map (fun p => ('\x08' :: p.1, p.2))
    | 'f' :: u => (lexStr u).map (fun p => ('\x0c' :: p.1, p.2))
    | 'u' :: h1 :: h2 :: h3 :: h4 :: u =>
      match hexVal h1, hexVal h2, hexVal h3, hexVal h4 with
      | some a, some b, some c, some d =>
        (lexStr u).map (fun p => (Char.ofNat (((a * 16 + b) * 16 + c) * 16 + d) :: p.1, p.2))
      | _, _, _, _ => none
    | _ => none
  | c :: t => (lexStr t).map (fun p => (c :: p.1, p.2))

/-- Lex a JSON number token: returns (is-float, lexeme, rest). -/
def lexNumber (l : List Char) : Option (Bool × List Char × List Char) :=
  let (sgn, l1) := match l with | '-' :: t => (['-'], t) | _ => (([] : List Char), l)
  let (ds, r1) := l1.span isDigitC
  if ds.isEmpty then none else
  let fracRes : Option (List Char × List Char) :=
    match r1 with
    | '.' :: t2 =>
      let (fs2, r2) := t2.span isDigitC
      if fs2.isEmpty then none else some ('.' :: fs2, r2)
    | _ => some ([], r1)
  match fracRes with
  | none => none
  | some (fpart, r2) =>
    let expRes : Option (List Char × List Char) :=
      match r2 with
      | c :: t3 =>
        if c == 'e' || c == 'E' then
          let (esgn, t4) := match t3 with
            | '+' :: u => (['+'], u)
            | '-' :: u => (['-'], u)
            | _ => (([] : List Char), t3)
          let (es, r3) := t4.span isDigitC
          if es.isEmpty then none else some (c :: (esgn ++ es), r3)
        else some ([], c :: t3)
      | [] => some ([], [])
    match expRes with
    | none => none
    | some (epart, r3) =>
      some (!(fpart.isEmpty && epart.isEmpty), sgn ++ ds ++ fpart ++ epart, r3)

def parseNum (l : List Char) : Option (JVal × List Char) :=
  match lexNumber l with
  | none => none
  | some (isF, lexeme, rest) =>
    if isF then some (.fnum (String.mk lexeme), rest)
    else
      match lexeme with
      | '-' :: digs => some (.num (-(Int.ofNat (natOfDigits digs))), rest)
      | digs => some (.num (Int.ofNat (natOfDigits digs)), rest)

mutual

def parseV : Nat → List Char → Option (JVal × List Char)
  | 0, _ => none
  | fuel + 1, l =>
    match skipWs l with
    | 'n' :: 'u' :: 'l' :: 'l' :: t => some (.null, t)
    | 't' :: 'r' :: 'u' :: 'e' :: t => some (.bool true, t)
    | 'f' :: 'a' :: 'l' :: 's' :: 'e' :: t => some (.bool false, t)
    | 'N' :: 'a' :: 'N' :: t => some (.fnum "NaN", t)
    | 'I' :: 'n' :: 'f' :: 'i' :: 'n' :: 'i' :: 't' :: 'y' :: t =>
      some (.fnum "Infinity", t)
    | '-' :: 'I' :: 'n' :: 'f' :: 'i' :: 'n' :: 'i' :: 't' :: 'y' :: t =>
      some (.fnum "-Infinity", t)
    | '"' :: t =>
      match lexStr t with
      | some (cs, rest) => some (.str (String.mk cs), rest)
      | none => none
    | '[' :: t =>
      match skipWs t with
      | ']' :: t2 => some (.arr .nil, t2)
      | t2 => parseElems fuel t2
    | '\x7b' :: t =>
      match skipWs t with
      | '\x7d' :: t2 => some (.obj .nil, t2)
      | t2 =>
        match parseFields fuel t2 with
        | some (fs, rest) => some (.obj (buildDict fs), rest)
        | none => none
    | c :: t =>
      if c == '-' || isDigitC c then parseNum (c :: t) else none
    | [] => none

def parseElems : Nat → List Char → Option (JVal × List Char)
  | 0, _ => none
  | fuel + 1, l =>
    match parseV fuel l with
    | none => none
    | some (v, rest) =>
      match skipWs rest with
      | ',' :: t =>
        match parseElems fuel t with
        | some (.arr tl, rest2) => some (.arr (.cons v tl), rest2)
        | _ => none
      | ']' :: t => some (.arr (.cons v .nil), t)
      | _ => none

def parseFields : Nat → List Char → Option (JFields × List Char)
  | 0, _ => none
  | fuel + 1, l =>
    match skipWs l with
    | '"' :: t =>
      match lexStr t with
      | none => none
      | some (kcs, rest) =>
        match skipWs rest with
        | ':' :: t2 =>
          match parseV fuel t2 with
          | none => none
          | some (v, rest2) =>
            match skipWs rest2 with
            | ',' :: t3 =>
              match parseFields fuel t3 with
              | some (tl, rest3) => some (.cons (String.mk kcs) v tl, rest3)
              | none => none
            | '\x7d' :: t3 => some (.cons (String.mk kcs) v .nil, t3)
            | _ => none
        | _ => none
    | _ => none

end

/-- Model of Python `json.loads` (requires the whole input consumed up to
trailing whitespace, as `json.loads` does). -/
def jsonParse (s : String) : Option JVal :=
  match parseV (2 * s.data.length + 4) s.data with
  | some (v, rest) => if (skipWs rest).isEmpty then some v else none
  | none => none

/-! ## The record normalizer (`AWSConfigParser.__init__`, lines 161-193) -/

/-- One raw configuration item as loaded from the snapshot JSON, restricted
to the fields the per-item normalization touches.  `configuration`,
`relationships` and `tags` hold arbitrary JSON values; a missing field is
`null` (Python `item.get(...)` returns `None` for both). -/
structure RawItem where
  resourceType : String := ""
  resourceId : String := ""
  configuration : JVal := .null
  relationships : JVal := .null
  tags : JVal := .null

/-- The tag-collapsing loop: `for t in tags: ...` building `tag_dict`.
Non-string tag keys (which would make the Python dict non-JSON) are outside
the model and skipped. -/
def collapseTagsGo : JFields → JList → JFields
  | acc, .nil => acc
  | acc, .cons t tl =>
    match t with
    | .obj fs =>
      let k := fGetD fs "key" (fGetD fs "Key" (.str ""))
      let v := fGetD fs "value" (fGetD fs "Value" (.str ""))
      let acc' :=
        if jTruthy k then
          match k with
          | .str ks => fInsert acc ks v
          | _ => acc
        else acc
      collapseTagsGo acc' tl
    | _ => collapseTagsGo acc tl

/-- `tags` list-of-pairs collapsed to a dict. -/
def collapseTags (ts : JList) : JFields := collapseTagsGo .nil ts

/-- `if item.get("configuration") is None: item["configuration"] = \x7b\x7d`. -/
def nCfg0 : JVal → JVal
  | .null => .obj .nil
  | v => v

/-- Parse the configuration when it is serialized text; on parse failure it
is left as-is (the `except ...: pass` branch). -/
def nCfg1 : JVal → JVal
  | .str s => match jsonParse s with | some v => v | none => .str s
  | v => v

/-- Key-case rewriting, applied only when the configuration is a mapping. -/
def nCfg2 : JVal → JVal
  | .obj fs => .obj (buildDict (normKeysF fs))
  | v => v

/-- `if item.get("relationships") is None: item["relationships"] = []`. -/
def nRels : JVal → JVal
  | .null => .arr .nil
  | v => v

/-- Tag normalization: list collapsed to a dict, dict kept, anything else
replaced with an empty dict. -/
def nTags : JVal → JVal
  | .arr ts => .obj (collapseTags ts)
  | .obj fs => .obj fs
  | _ => .obj .nil

/-- The per-item normalization performed by `AWSConfigParser.__init__`:
null-field substitution, configuration parse when it is serialized text
(left as-is on parse failure), recursive key-case rewriting when it is a
mapping, and tag-list collapsing. -/
def normalizeItem (it : RawItem) : RawItem :=
  { it with configuration := nCfg2 (nCfg1 (nCfg0 it.configuration)),
            relationships := nRels it.relationships,
            tags := nTags it.tags }

/-- Sanity checks of the `json.loads` model on concrete inputs. -/
theorem jsonParse_checks :
    jsonParse "not json" = none ∧
    jsonParse "\"5\"" = some (.str "5") ∧
    jsonParse "5" = some (.num 5) ∧
    jsonParse "null" = some .null ∧
    jsonParse " \x7b\"VpcId\": \"v\", \"N\": [1, -2.5e3, true]\x7d " =
      some (.obj (.cons "VpcId" (.str "v")
        (.cons "N" (.arr (.cons (.num 1)
          (.cons (.fnum "-2.5e3") (.cons (.bool true) .nil)))) .nil))) :=
  ⟨rfl, rfl, rfl, rfl, rfl⟩

/-- Sanity checks of `_to_camel` on concrete keys. -/
theorem toCamel_checks :
    toCamel "VpcId" = "vpcId" ∧ toCamel "cidrBlock" = "cidrBlock" ∧
    toCamel "ARN" = "arN" :=
  ⟨rfl, rfl, rfl⟩

/-! ## Stability of the key-rewriting pass -/

/-- `(k, v)` is a binding of the field list. -/
def fHas : JFields → String → JVal → Prop
  | .nil, _, _ => False
  | .cons k' v' tl, k, v => (k' = k ∧ v' = v) ∨ fHas tl k v

/-- Keys of a field list, in order. -/
def fKeys : JFields → List String
  | .nil => []
  | .cons k _ tl => k :: fKeys tl

/-- Concatenation of field lists. -/
def fAppend : JFields → JFields → JFields
  | .nil, r => r
  | .cons k v tl, r => .cons k v (fAppend tl r)

theorem fAppend_nil : (l : JFields) → fAppend l .nil = l
  | .nil => rfl
  | .cons k v tl => by
    show JFields.cons k v (fAppend tl .nil) = _
    rw [fAppend_nil tl]

theorem fAppend_assoc : (a : JFields) → (b c : JFields) →
    fAppend (fAppend a b) c = fAppend a (fAppend b c)
  | .nil, _, _ => rfl
  | .cons k v tl, b, c => by
    show JFields.cons k v (fAppend (fAppend tl b) c) = _
    rw [fAppend_assoc tl b c]
    rfl

theorem fKeys_fAppend : (a : JFields) → (b : JFields) →
    fKeys (fAppend a b) = fKeys a ++ fKeys b
  | .nil, _ => rfl
  | .cons k v tl, b => by
    show k :: fKeys (fAppend tl b) = _
    rw [fKeys_fAppend tl b]
    rfl

theorem fHas_fInsert : (acc : JFields) → ∀ (k : String) (v : JVal) (k' : String) (v' : JVal),
    fHas (fInsert acc k v) k' v' → (k' = k ∧ v' = v) ∨ fHas acc k' v'
  | .nil => by
    intro k v k' v' h
    rcases h with ⟨hk, hv⟩ | h
    · exact Or.inl ⟨hk.symm, hv.symm⟩
    · exact absurd h id
  | .cons a b tl => by
    intro k v k' v' h
    by_cases hak : (a == k) = true
    · have ha : a = k := by simpa using hak
      rw [show fInsert (JFields.cons a b tl) k v = JFields.cons a v tl by
        show (if a == k then _ else _) = _; rw [hak]; rfl] at h
      rcases h with ⟨hk, hv⟩ | h
      · exact Or.inl ⟨hk ▸ ha.symm ▸ rfl, hv.symm⟩
      · exact Or.inr (Or.inr h)
    · rw [show fInsert (JFields.cons a b tl) k v = JFields.cons a b (fInsert tl k v) by
        show (if a == k then _ else _) = _; rw [Bool.of_not_eq_true hak]; rfl] at h
      rcases h with hab | h
      · exact Or.inr (Or.inl hab)
      · rcases fHas_fInsert tl _ _ _ _ h with h1 | h2
        · exact Or.inl h1
        · exact Or.inr (Or.inr h2)

theorem fHas_buildDictGo : (fs : JFields) → ∀ (acc : JFields) (k : String) (v : JVal),
    fHas (buildDictGo acc fs) k v → fHas acc k v ∨ fHas fs k v
  | .nil => by intro acc k v h; exact Or.inl h
  | .cons k0 v0 tl => by
    intro acc k v h
    rcases fHas_buildDictGo tl (fInsert acc k0 v0) _ _ h with h1 | h2
    · rcases fHas_fInsert acc _ _ _ _ h1 with ⟨hk, hv⟩ | h3
      · exact Or.inr (Or.inl ⟨hk.symm, hv.symm⟩)
      · exact Or.inl h3
    · exact Or.inr (Or.inr h2)

theorem fHas_buildDict {fs : JFields} {k : String} {v : JVal}
    (h : fHas (buildDict fs) k v) : fHas fs k v := by
  rcases fHas_buildDictGo fs .nil _ _ h with h1 | h2
  · exact absurd h1 id
  · exact h2

theorem fKeys_fInsert : (acc : JFields) → (k : String) → (v : JVal) →
    fKeys (fInsert acc k v) =
      if k ∈ fKeys acc then fKeys acc else fKeys acc ++ [k]
  | .nil, k, v => by simp [fInsert, fKeys]
  | .cons a b tl, k, v => by
    by_cases hak : (a == k) = true
    · have ha : a = k := by simpa using hak
      rw [show fInsert (JFields.cons a b tl) k v = JFields.cons a v tl by
        show (if a == k then _ else _) = _; rw [hak]; rfl]
      have hmem : k ∈ fKeys (JFields.cons a b tl) := by
        show k ∈ a :: fKeys tl; exact ha ▸ List.mem_cons_self a _
      rw [if_pos hmem]
      rfl
    · have ha : a ≠ k := fun e => hak (by simp [e])
      rw [show fInsert (JFields.cons a b tl) k v = JFields.cons a b (fInsert tl k v) by
        show (if a == k then _ else _) = _; rw [Bool.of_not_eq_true hak]; rfl]
      show a :: fKeys (fInsert tl k v) = _
      rw [fKeys_fInsert tl k v]
      by_cases hmem : k ∈ fKeys tl
      · rw [if_pos hmem, if_pos (by show k ∈ a :: fKeys tl; exact List.mem_cons_of_mem _ hmem)]
        rfl
      · rw [if_neg hmem, if_neg (by
          show ¬ k ∈ a :: fKeys tl
          intro hc
          rcases List.mem_cons.mp hc with h1 | h2
          · exact ha h1.symm
          · exact hmem h2)]
        rfl

theorem nodup_fInsert {acc : JFields} (k : String) (v : JVal)
    (h : (fKeys acc).Nodup) : (fKeys (fInsert acc k v)).Nodup := by
  rw [fKeys_fInsert]
  by_cases hmem : k ∈ fKeys acc
  · rwa [if_pos hmem]
  · rw [if_neg hmem, List.nodup_append]
    exact ⟨h, List.nodup_singleton k, by
      intro x hx hx'
      rcases List.mem_singleton.mp hx' with rfl
      exact hmem hx⟩

theorem nodup_buildDictGo : (fs : JFields) →
    ∀ (acc : JFields), (fKeys acc).Nodup → (fKeys (buildDictGo acc fs)).Nodup
  | .nil => by intro acc h; exact h
  | .cons k v tl => by intro acc h; exact nodup_buildDictGo tl _ (nodup_fInsert k v h)

theorem nodup_buildDict (fs : JFields) : (fKeys (buildDict fs)).Nodup :=
  nodup_buildDictGo fs .nil List.nodup_nil

theorem fInsert_of_not_mem : {acc : JFields} → {k : String} → (v : JVal) →
    k ∉ fKeys acc → fInsert acc k v = fAppend acc (.cons k v .nil)
  | .nil, k, v, _ => rfl
  | .cons a b tl, k, v, h => by
    have ha : (a == k) = false := by
      have hne : a ≠ k := fun e => h (by show k ∈ a :: fKeys tl; exact e ▸ List.mem_cons_self a _)
      simpa using hne
    rw [show fInsert (JFields.cons a b tl) k v = JFields.cons a b (fInsert tl k v) by
      show (if a == k then _ else _) = _; rw [ha]; rfl]
    rw [fInsert_of_not_mem v
      (fun hm => h (by show k ∈ a :: fKeys tl; exact List.mem_cons_of_mem _ hm))]
    rfl

theorem buildDictGo_of_disjoint : (fs : JFields) →
    ∀ (acc : JFields), (fKeys fs).Nodup → (∀ x ∈ fKeys fs, x ∉ fKeys acc) →
      buildDictGo acc fs = fAppend acc fs
  | .nil => by intro acc _ _; exact (fAppend_nil acc).symm
  | .cons k v tl => by
    intro acc hnd hdisj
    have hk : k ∉ fKeys acc := hdisj k (by show k ∈ k :: fKeys tl; exact List.mem_cons_self k _)
    have hnd2 : (k :: fKeys tl).Nodup := hnd
    have hndtl : (fKeys tl).Nodup := (List.nodup_cons.mp hnd2).2
    have hknotl : k ∉ fKeys tl := (List.nodup_cons.mp hnd2).1
    show buildDictGo (fInsert acc k v) tl = _
    rw [fInsert_of_not_mem v hk]
    rw [buildDictGo_of_disjoint tl _ hndtl (by
      intro x hx
      rw [fKeys_fAppend]
      intro hc
      rcases List.mem_append.mp hc with h1 | h2
      · exact hdisj x (by show x ∈ k :: fKeys tl; exact List.mem_cons_of_mem _ hx) h1
      · rcases List.mem_singleton.mp (by simpa [fKeys] using h2) with rfl
        exact hknotl hx)]
    rw [fAppend_assoc]
    rfl

theorem buildDict_of_nodup {fs : JFields} (h : (fKeys fs).Nodup) : buildDict fs = fs :=
  buildDictGo_of_disjoint fs .nil h (fun _ _ hc => by simp [fKeys] at hc)

theorem buildDict_buildDict (fs : JFields) : buildDict (buildDict fs) = buildDict fs :=
  buildDict_of_nodup (nodup_buildDict fs)

theorem normKeysF_of_fixed : {fs : JFields} →
    (∀ k v, fHas fs k v → toCamel k = k ∧ normKeysV v = v) → normKeysF fs = fs
  | .nil, _ => rfl
  | .cons k0 v0 tl, h => by
    have h0 := h k0 v0 (Or.inl ⟨rfl, rfl⟩)
    show JFields.cons (toCamel k0) (normKeysV v0) (normKeysF tl) = JFields.cons k0 v0 tl
    rw [h0.1, h0.2, normKeysF_of_fixed (fun k v hkv => h k v (Or.inr hkv))]

mutual

theorem normKeysV_idem : (v : JVal) → normKeysV (normKeysV v) = normKeysV v
  | .null => rfl
  | .bool _ => rfl
  | .num _ => rfl
  | .fnum _ => rfl
  | .str _ => rfl
  | .arr xs => congrArg JVal.arr (normKeysL_idem xs)
  | .obj fs => by
    have hfix : ∀ k v, fHas (buildDict (normKeysF fs)) k v →
        toCamel k = k ∧ normKeysV v = v :=
      fun k v h => normKeysF_fixed fs k v (fHas_buildDict h)
    show JVal.obj (buildDict (normKeysF (buildDict (normKeysF fs)))) =
      JVal.obj (buildDict (normKeysF fs))
    rw [normKeysF_of_fixed hfix, buildDict_buildDict]

theorem normKeysL_idem : (xs : JList) → normKeysL (normKeysL xs) = normKeysL xs
  | .nil => rfl
  | .cons v tl => by
    show JList.cons (normKeysV (normKeysV v)) (normKeysL (normKeysL tl)) =
      JList.cons (normKeysV v) (normKeysL tl)
    rw [normKeysV_idem v, normKeysL_idem tl]

theorem normKeysF_fixed : (fs : JFields) → ∀ k v, fHas (normKeysF fs) k v →
    toCamel k = k ∧ normKeysV v = v
  | .nil => by intro k v h; exact absurd h id
  | .cons k0 v0 tl => by
    intro k v h
    rcases h with ⟨hk, hv⟩ | h
    · exact ⟨hk ▸ toCamel_idem k0, hv ▸ normKeysV_idem v0⟩
    · exact normKeysF_fixed tl k v h

end

/-! ## Idempotence analysis of the normalizer -/

/-- A normalized configuration value is stable under a second normalization
pass iff it is not `null` (a second pass would replace `null` with an empty
mapping) and it is not serialized text that parses as JSON (a second pass
would replace it with its parse). -/
def cfgStable : JVal → Prop
  | .null => False
  | .str s => jsonParse s = none
  | _ => True

theorem nCfg0_of_ne_null : (v : JVal) → v ≠ .null → nCfg0 v = v
  | .null, h => absurd rfl h
  | .bool _, _ => rfl
  | .num _, _ => rfl
  | .fnum _, _ => rfl
  | .str _, _ => rfl
  | .arr _, _ => rfl
  | .obj _, _ => rfl

theorem nRels_nRels : (v : JVal) → nRels (nRels v) = nRels v
  | .null => rfl
  | .bool _ => rfl
  | .num _ => rfl
  | .fnum _ => rfl
  | .str _ => rfl
  | .arr _ => rfl
  | .obj _ => rfl

theorem nTags_nTags : (v : JVal) → nTags (nTags v) = nTags v
  | .null => rfl
  | .bool _ => rfl
  | .num _ => rfl
  | .fnum _ => rfl
  | .str _ => rfl
  | .arr _ => rfl
  | .obj _ => rfl

/-- The key-rewriting stage output is a fixed point of itself. -/
theorem nCfg2_nCfg2 : (v : JVal) → nCfg2 (nCfg2 v) = nCfg2 v
  | .null => rfl
  | .bool _ => rfl
  | .num _ => rfl
  | .fnum _ => rfl
  | .str _ => rfl
  | .arr _ => rfl
  | .obj fs => by
    have hfix : ∀ k v, fHas (buildDict (normKeysF fs)) k v →
        toCamel k = k ∧ normKeysV v = v :=
      fun k v h => normKeysF_fixed fs k v (fHas_buildDict h)
    show JVal.obj (buildDict (normKeysF (buildDict (normKeysF fs)))) =
      JVal.obj (buildDict (normKeysF fs))
    rw [normKeysF_of_fixed hfix, buildDict_buildDict]

/-- On a stable value the null-substitution and parse stages are identity. -/
theorem nCfg01_of_stable : (v : JVal) → cfgStable v → nCfg1 (nCfg0 v) = v
  | .null, h => absurd h id
  | .bool _, _ => rfl
  | .num _, _ => rfl
  | .fnum _, _ => rfl
  | .str s, h => by
    show nCfg1 (.str s) = .str s
    show (match jsonParse s with | some v => v | none => JVal.str s) = .str s
    rw [show jsonParse s = none from h]
  | .arr _, _ => rfl
  | .obj _, _ => rfl

/-- Re-normalizing an item whose normalized configuration is stable is a
no-op. -/
theorem normalizeItem_idem (it : RawItem)
    (h : cfgStable (normalizeItem it).configuration) :
    normalizeItem (normalizeItem it) = normalizeItem it := by
  show RawItem.mk _ _ _ _ _ = RawItem.mk _ _ _ _ _
  congr 1
  · -- configuration
    show nCfg2 (nCfg1 (nCfg0 (nCfg2 (nCfg1 (nCfg0 it.configuration))))) =
      nCfg2 (nCfg1 (nCfg0 it.configuration))
    have h' : cfgStable (nCfg2 (nCfg1 (nCfg0 it.configuration))) := h
    rw [nCfg01_of_stable _ h', nCfg2_nCfg2]
  · -- relationships
    exact nRels_nRels it.relationships
  · -- tags
    exact nTags_nTags it.tags

/-- Sanity check: a doubly-serialized configuration is unwrapped one level
per pass. -/
theorem normalizeItem_checks :
    (normalizeItem { configuration := .str "\"5\"" } : RawItem).configuration =
      .str "5" ∧
    (normalizeItem (normalizeItem
      ({ configuration := .str "\"5\"" } : RawItem))).configuration = .num 5 :=
  ⟨rfl, rfl⟩

/-! ## Claims about the normalizer (C6, C7, C10) -/

/-- C7: the claim says a key beginning with two-or-more consecutive
uppercase letters keeps that entire run capitalized except its very first
character.  The code's own docstring agrees (`DBInstanceClass ->
dBInstanceClass`), but `_to_camel` actually lowercases all but the last
letter of the run: `DBInstanceClass -> dbInstanceClass`.  This theorem
evaluates the code at the failing input. -/
theorem c7_toCamel_at_failing_input :
    toCamel "DBInstanceClass" = "dbInstanceClass" ∧
    toCamel "DBInstanceClass" ≠ "dBInstanceClass" := by
  exact ⟨rfl, by decide⟩

/-- Raw item whose configuration is serialized text that is not JSON. -/
def cex6 : RawItem :=
  { resourceType := "AWS::EC2::VPC", resourceId := "vpc-1",
    configuration := .str "not json" }

/-- C6 counterexample: on a configuration that arrives as unparseable
serialized text the normalizer does not substitute an empty mapping - it
leaves the original string in place. -/
theorem c6_counterexample :
    jsonParse "not json" = none ∧
    (normalizeItem cex6).configuration ≠ JVal.obj .nil := by
  refine ⟨rfl, fun h => ?_⟩
  have h2 := congrArg serV h
  exact absurd h2 (by decide)

/-- C6 amended: when the `configuration` field arrives as serialized text
that fails to parse as JSON, the normalizer leaves the field unchanged (the
original string); normalization is total. -/
theorem c6_normalizeItem_keeps_unparseable_text (it : RawItem) (s : String)
    (hc : it.configuration = .str s) (hp : jsonParse s = none) :
    (normalizeItem it).configuration = .str s := by
  show nCfg2 (nCfg1 (nCfg0 it.configuration)) = .str s
  rw [hc]
  show nCfg2 (nCfg1 (.str s)) = .str s
  rw [show nCfg1 (.str s) = .str s by
    show (match jsonParse s with | some v => v | none => JVal.str s) = .str s
    rw [hp]]
  rfl

/-- Raw item used to instantiate the amended C6 theorem. -/
def wit6 : RawItem :=
  { resourceType := "AWS::EC2::Subnet", resourceId := "subnet-1",
    configuration := .str "oops" }

/-- Witness for the amended C6 theorem at a concrete item. -/
theorem c6_witness :
    jsonParse "oops" = none ∧ (normalizeItem wit6).configuration = .str "oops" :=
  ⟨rfl, c6_normalizeItem_keeps_unparseable_text wit6 "oops" rfl rfl⟩

/-- Raw item whose configuration is serialized text that parses to another
piece of serialized text. -/
def cex10 : RawItem :=
  { resourceType := "AWS::EC2::VPC", resourceId := "vpc-1",
    configuration := .str "\"5\"" }

/-- C10 counterexample: normalization is not idempotent.  A configuration
arriving as the serialized text `"5"` is parsed to the string `5` by the
first pass, and the second pass parses that string again, yielding the
number 5. -/
theorem c10_counterexample :
    normalizeItem (normalizeItem cex10) ≠ normalizeItem cex10 := by
  intro h
  have h2 := congrArg (fun r => serV r.configuration) h
  exact absurd h2 (by decide)

/-- C10 amended: re-normalizing an already-normalized item is a no-op
provided the normalized configuration is stable (not serialized text that
parses as JSON, and not `null`); in particular the key rewrite and the tag
collapsing are always stable under re-application. -/
theorem c10_renormalize_noop (it : RawItem)
    (h : cfgStable (normalizeItem it).configuration) :
    normalizeItem (normalizeItem it) = normalizeItem it :=
  normalizeItem_idem it h

/-- Raw item used to instantiate the amended C10 theorem: a mapping-shaped
configuration with PascalCase keys and a tag list. -/
def wit10 : RawItem :=
  { resourceType := "AWS::EC2::Subnet", resourceId := "subnet-2",
    configuration := .obj (.cons "VpcId" (.str "vpc-9")
      (.cons "CidrBlock" (.str "10.0.0.0/24") .nil)),
    tags := .arr (.cons (.obj (.cons "key" (.str "Name")
      (.cons "value" (.str "app") .nil))) .nil) }

/-- Witness for the amended C10 theorem at a concrete item. -/
theorem c10_witness :
    cfgStable (normalizeItem wit10).configuration ∧
    normalizeItem (normalizeItem wit10) = normalizeItem wit10 :=
  ⟨by trivial, c10_renormalize_noop wit10 (by trivial)⟩

/-! ## Typed layer: snapshot items as read by the topology resolver

Each field of `Config` models exactly one key read by the Python code from
the (already normalized) `configuration` mapping, with the Python
`dict.get` default as the Lean default; `Option` marks the first key of a
dual-key `cfg.get(a, cfg.get(b, d))` fallback, where key presence (not
truthiness) selects the branch.  This layer covers snapshots whose
`configuration` payloads are mappings with well-shaped nested values. -/

structure Route where
  destinationCidrBlock : Option String := none
  destinationCidr : String := ""
  gatewayId : String := ""
  natGatewayId : String := ""
deriving DecidableEq

structure RtAssoc where
  subnetId : String := ""
  main : Bool := false
deriving DecidableEq

structure AlbAz where
  subnetId : String := ""
deriving DecidableEq

structure SubnetRef where
  subnetIdentifier : String := ""
deriving DecidableEq

structure DbSubnetGroup where
  vpcId : String := ""
  subnets : List SubnetRef := []
deriving DecidableEq

structure SgPair where
  groupId : Option String := none
  description : String := ""
deriving DecidableEq

structure SgRule where
  ipProtocol : String := ""
  fromPort : String := ""
  userIdGroupPairs : List SgPair := []
deriving DecidableEq

structure Config where
  vpcId : String := ""
  subnetId : String := ""
  cidrBlock : String := ""
  availabilityZone : String := ""
  mapPublicIpOnLaunch : Bool := false
  isDefault : Bool := false
  privateIpAddress : String := ""
  routes : Option (List Route) := none
  routeSet : List Route := []
  associations : Option (List RtAssoc) := none
  routeTableAssociationSet : List RtAssoc := []
  scheme : String := ""
  availabilityZones : List AlbAz := []
  dBSubnetGroup : Option DbSubnetGroup := none
  dbSubnetGroup : Option DbSubnetGroup := none
  groupId : Option String := none
  groupName : String := ""
  ipPermissions : List SgRule := []
deriving DecidableEq

structure RelRef where
  resourceType : String := ""
  resourceId : String := ""
deriving DecidableEq

/-- One normalized configuration item, restricted to the fields read by the
functions modeled here.  `suppCidrBlock` / `suppCidrAssocs` model the
`supplementaryConfiguration` keys `cidrBlock` and the `cidrBlock` values of
its `cidrBlockAssociationSet` entries (already parsed). -/
structure Item where
  resourceType : String := ""
  resourceId : String := ""
  configuration : Config := {}
  relationships : List RelRef := []
  tags : List (String × String) := []
  availabilityZone : String := ""
  resourceName : String := ""
  suppCidrBlock : String := ""
  suppCidrAssocs : List String := []
deriving DecidableEq

/-- A loaded snapshot: the item collection in file order. -/
abbrev Snapshot := List Item

/-- `self.by_type[t]` (items of the fixed audit types are bucketed in file
order; looking up a specific audit type is filtering by it). -/
def byType (t : String) (s : Snapshot) : List Item :=
  s.filter (fun it => it.resourceType == t)

/-! Python dicts with string keys, as insertion-ordered association lists. -/

/-- Python `d[k] = v`: update in place when the key exists (keys are unique
in every dict built here), else append. -/
def dinsert {α : Type} : List (String × α) → String → α → List (String × α)
  | [], k, v => [(k, v)]
  | p :: t, k, v => if p.1 == k then (p.1, v) :: t else p :: dinsert t k v

/-- Python `d.get(k)` / `k in d`. -/
def dget? {α : Type} (m : List (String × α)) (k : String) : Option α :=
  (m.find? (fun p => p.1 == k)).map (·.2)

/-- Python `d.get(k, dflt)`. -/
def dgetD {α : Type} (m : List (String × α)) (k : String) (dflt : α) : α :=
  (dget? m k).getD dflt

/-- Python `defaultdict(int)`: `d[k] += n`. -/
def cinc (m : List (String × Nat)) (k : String) (n : Nat) : List (String × Nat) :=
  dinsert m k (dgetD m k 0 + n)

/-- Append `v` to the bucket of `k` (Python `defaultdict(list)`:
`d[k].append(v)`). -/
def bappend : List (String × List String) → String → String → List (String × List String)
  | [], k, v => [(k, [v])]
  | p :: t, k, v => if p.1 == k then (p.1, p.2 ++ [v]) :: t else p :: bappend t k v

/-- `AWSConfigParser._get_related_vpc`: first VPC-typed relationship. -/
def getRelatedVpc (it : Item) : String :=
  match it.relationships.find? (fun r => r.resourceType == "AWS::EC2::VPC") with
  | some r => r.resourceId
  | none => ""

/-- `cfg.get("routes", cfg.get("routeSet", []))`. -/
def cfgRoutes (c : Config) : List Route :=
  match c.routes with
  | some r => r
  | none => c.routeSet

/-- `cfg.get("associations", cfg.get("routeTableAssociationSet", []))`. -/
def cfgAssocs (c : Config) : List RtAssoc :=
  match c.associations with
  | some a => a
  | none => c.routeTableAssociationSet

/-- `cfg.get("dBSubnetGroup", cfg.get("dbSubnetGroup", \x7b\x7d))`. -/
def rdsGroup (c : Config) : DbSubnetGroup :=
  match c.dBSubnetGroup with
  | some g => g
  | none => c.dbSubnetGroup.getD {}

/-- `r.get("destinationCidrBlock", r.get("destinationCidr", ""))`. -/
def routeDest (r : Route) : String :=
  match r.destinationCidrBlock with
  | some d => d
  | none => r.destinationCidr

/-- The route table's resolved VPC: `cfg.get("vpcId", "")`, with the
relationships fallback when falsy. -/
def rtVpcOf (it : Item) : String :=
  if it.configuration.vpcId != "" then it.configuration.vpcId else getRelatedVpc it

/-- `AWSConfigParser._build_subnet_vpc_map` (six evidence sources merged by
first-strategy-wins). -/
def buildSubnetVpcMap (s : Snapshot) : List (String × String) :=
  -- Source 1: Subnet configuration itself
  let m := (byType "AWS::EC2::Subnet" s).foldl (fun m it =>
    if it.configuration.vpcId != "" then dinsert m it.resourceId it.configuration.vpcId
    else m) []
  -- Source 2: Subnet relationships
  let m := (byType "AWS::EC2::Subnet" s).foldl (fun m it =>
    if (dget? m it.resourceId).isNone then
      if getRelatedVpc it != "" then dinsert m it.resourceId (getRelatedVpc it) else m
    else m) m
  -- Source 3: EC2 instances
  let m := (byType "AWS::EC2::Instance" s).foldl (fun m it =>
    let sub := it.configuration.subnetId
    let vpc := it.configuration.vpcId
    if sub != "" && vpc != "" && (dget? m sub).isNone then dinsert m sub vpc else m) m
  -- Source 4: NAT Gateways
  let m := (byType "AWS::EC2::NatGateway" s).foldl (fun m it =>
    let sub := it.configuration.subnetId
    let vpc := it.configuration.vpcId
    if sub != "" && vpc != "" && (dget? m sub).isNone then dinsert m sub vpc else m) m
  -- Source 5: ALB availability zones
  let m := (byType "AWS::ElasticLoadBalancingV2::LoadBalancer" s).foldl (fun m it =>
    let vpc := it.configuration.vpcId
    if vpc != "" then
      it.configuration.availabilityZones.foldl (fun m az =>
        if az.subnetId != "" && (dget? m az.subnetId).isNone then
          dinsert m az.subnetId vpc
        else m) m
    else m) m
  -- Source 6: Route table associations
  (byType "AWS::EC2::RouteTable" s).foldl (fun m it =>
    let rtVpc := rtVpcOf it
    if rtVpc != "" then
      (cfgAssocs it.configuration).foldl (fun m a =>
        if a.subnetId != "" && (dget? m a.subnetId).isNone then
          dinsert m a.subnetId rtVpc
        else m) m
    else m) m

/-- The resource-count map of `AWSConfigParser._get_primary_vpc_id`:
+1 per subnet resolved to the VPC, +10 per EC2 instance whose configuration
names the VPC. -/
def vpcCounts (s : Snapshot) : List (String × Nat) :=
  let m := (buildSubnetVpcMap s).foldl (fun m p => cinc m p.2 1) []
  (byType "AWS::EC2::Instance" s).foldl (fun m it =>
    if it.configuration.vpcId != "" then cinc m it.configuration.vpcId 10 else m) m

/-- One comparison step of Python `max(d, key=d.get)`: a later entry
replaces the best only when strictly greater. -/
def maxStep (best p : String × Nat) : String × Nat :=
  if p.2 > best.2 then p else best

/-- Python `max(d, key=d.get)`: the first key attaining the maximum value,
in insertion order. -/
def maxKey (h : String × Nat) (t : List (String × Nat)) : String :=
  (t.foldl maxStep h).1

/-- `AWSConfigParser._get_primary_vpc_id`. -/
def getPrimaryVpcId (s : Snapshot) : String :=
  match vpcCounts s with
  | h :: t => maxKey h t
  | [] =>
    match (byType "AWS::EC2::VPC" s).find? (fun it => !it.configuration.isDefault) with
    | some it => it.resourceId
    | none =>
      match byType "AWS::EC2::VPC" s with
      | it :: _ => it.resourceId
      | [] => ""

/-- Stages 1-3 of `AWSConfigParser._build_rds_vpc_map` (explicit
subnet-group owner, relationships, subnet match against the resolved
subnet-to-VPC map). -/
def rdsStage123 (s : Snapshot) : List (String × String) :=
  let s2v := buildSubnetVpcMap s
  (byType "AWS::RDS::DBInstance" s).foldl (fun m it =>
    let g := rdsGroup it.configuration
    if g.vpcId != "" then dinsert m it.resourceId g.vpcId
    else if getRelatedVpc it != "" then dinsert m it.resourceId (getRelatedVpc it)
    else
      match (g.subnets.filterMap (fun sr =>
        if sr.subnetIdentifier != "" then
          (dget? s2v sr.subnetIdentifier).map (fun v => v)
        else none)).head? with
      | some v => dinsert m it.resourceId v
      | none => m) []

/-- The last-resort loop body of `_build_rds_vpc_map`: an unresolved
database is assigned the primary VPC when one was computed. -/
def rdsLastStep (primary : String) (m : List (String × String)) (it : Item) :
    List (String × String) :=
  if (dget? m it.resourceId).isNone && primary != "" then
    dinsert m it.resourceId primary
  else m

/-- `AWSConfigParser._build_rds_vpc_map`: stages 1-3, then the last resort
(primary VPC), which is computed only when stages 1-3 resolved at least one
database (`if rds2vpc: primary = ... else: primary = ""`). -/
def buildRdsVpcMap (s : Snapshot) : List (String × String) :=
  let m := rdsStage123 s
  let primary := if m.isEmpty then "" else getPrimaryVpcId s
  (byType "AWS::RDS::DBInstance" s).foldl (rdsLastStep primary) m

/-- `AWSConfigParser._build_subnet_cidr_map`.  The NetworkInterface loop of
the Python code iterates `by_type.get("AWS::EC2::NetworkInterface", [])`,
which is always empty because that type is not in the audit allow-list, so
only the EC2-instance loop contributes. -/
def buildSubnetCidrMap (s : Snapshot) : List (String × String) :=
  let ips := (byType "AWS::EC2::Instance" s).foldl (fun m it =>
    let sub := it.configuration.subnetId
    let pip := it.configuration.privateIpAddress
    if sub != "" && pip != "" then
      if (dgetD m sub []).contains pip then m else bappend m sub pip
    else m) []
  ips.foldl (fun cm p =>
    match p.2 with
    | [] => cm
    | ip :: _ =>
      match ip.splitOn "." with
      | [p0, p1, p2, _] => dinsert cm p.1 (p0 ++ "." ++ p1 ++ "." ++ p2 ++ ".0/24")
      | _ => cm) []

/-! ## Tier classifier (`AWSConfigParser._build_subnet_tier_map`) -/

/-- Python `s.startswith(pre)`. -/
def strStartsWith (s pre : String) : Bool :=
  pre.data.isPrefixOf s.data

/-- The per-route-table flag loop: `(has_igw, has_nat, has_default)` after
scanning the routes. -/
def routeFlags (routes : List Route) : Bool × Bool × Bool :=
  routes.foldl (fun acc r =>
    let hIgw := acc.1
    let hNat := acc.2.1
    if routeDest r == "0.0.0.0/0" then
      if r.gatewayId != "" && strStartsWith r.gatewayId "igw-" then (true, hNat, true)
      else if r.natGatewayId != "" && strStartsWith r.natGatewayId "nat-" then
        (hIgw, true, true)
      else (hIgw, hNat, true)
    else acc) (false, false, false)

/-- The tier assigned by one route table from its route flags. -/
def rtTier (c : Config) : String :=
  let f := routeFlags (cfgRoutes c)
  if f.1 then "Public"
  else if f.2.1 || f.2.2 then "Private"
  else "Isolated"

/-- One association of one route table in stage 1: assign the table's tier
to the associated subnet id, or to the `_main` sentinel for a main
association without a subnet id. -/
def stage1Assoc (tier : String) (m : List (String × String)) (a : RtAssoc) :
    List (String × String) :=
  if a.subnetId != "" then dinsert m a.subnetId tier
  else if a.main then dinsert m "_main" tier
  else m

/-- One route table in stage 1: skipped unless resolved to the VPC, else
its tier is assigned to all its associations. -/
def stage1Step (vpcId : String) (m : List (String × String)) (it : Item) :
    List (String × String) :=
  if rtVpcOf it != vpcId then m
  else (cfgAssocs it.configuration).foldl (stage1Assoc (rtTier it.configuration)) m

/-- Stage 1 (routing analysis): walk the VPC's route tables. -/
def stage1 (s : Snapshot) (vpcId : String) : List (String × String) :=
  (byType "AWS::EC2::RouteTable" s).foldl (stage1Step vpcId) []

/-- `vpc_subnet_ids`: subnet ids resolved to this VPC by the subnet-to-VPC
map (membership is all that is used). -/
def vpcSubnetIds (s : Snapshot) (vpcId : String) : List String :=
  ((buildSubnetVpcMap s).filter (fun p => p.2 == vpcId)).map (·.1)

/-- Stage 2 (service-placement heuristics): NAT subnets and internet-facing
ALB subnets are Public, RDS subnet-group subnets are Isolated; each only
when the subnet belongs to the VPC and is not already classified. -/
def stage2Nat (s : Snapshot) (vpcId : String) (m1 : List (String × String)) :
    List (String × String) :=
  (byType "AWS::EC2::NatGateway" s).foldl (fun m it =>
    if it.configuration.subnetId != "" &&
        (vpcSubnetIds s vpcId).contains it.configuration.subnetId &&
        (dget? m it.configuration.subnetId).isNone then
      dinsert m it.configuration.subnetId "Public"
    else m) m1

def stage2Alb (s : Snapshot) (vpcId : String) (m1 : List (String × String)) :
    List (String × String) :=
  (byType "AWS::ElasticLoadBalancingV2::LoadBalancer" s).foldl (fun m it =>
    if it.configuration.scheme == "internet-facing" then
      it.configuration.availabilityZones.foldl (fun m az =>
        if az.subnetId != "" && (vpcSubnetIds s vpcId).contains az.subnetId &&
            (dget? m az.subnetId).isNone then
          dinsert m az.subnetId "Public"
        else m) m
    else m) m1

def stage2Rds (s : Snapshot) (vpcId : String) (m1 : List (String × String)) :
    List (String × String) :=
  (byType "AWS::RDS::DBInstance" s).foldl (fun m it =>
    (rdsGroup it.configuration).subnets.foldl (fun m sr =>
      if sr.subnetIdentifier != "" &&
          (vpcSubnetIds s vpcId).contains sr.subnetIdentifier &&
          (dget? m sr.subnetIdentifier).isNone then
        dinsert m sr.subnetIdentifier "Isolated"
      else m) m) m1

def stage2Map (s : Snapshot) (vpcId : String) (m1 : List (String × String)) :
    List (String × String) :=
  stage2Rds s vpcId (stage2Alb s vpcId (stage2Nat s vpcId m1))

/-- Stage 3 grouping: the VPC's subnets bucketed by availability zone
(configuration field, then top-level field, then `"unknown"`). -/
def azGroup (s : Snapshot) (vpcId : String) : List (String × List String) :=
  (byType "AWS::EC2::Subnet" s).foldl (fun g it =>
    if (vpcSubnetIds s vpcId).contains it.resourceId then
      let az0 := if it.configuration.availabilityZone != "" then
        it.configuration.availabilityZone else it.availabilityZone
      bappend g (if az0 != "" then az0 else "unknown") it.resourceId
    else g) []

/-- Subnet ids of the VPC that host an EC2 instance. -/
def ec2Subnets (s : Snapshot) (vpcId : String) : List String :=
  (byType "AWS::EC2::Instance" s).foldl (fun acc it =>
    if it.configuration.subnetId != "" &&
        (vpcSubnetIds s vpcId).contains it.configuration.subnetId &&
        !acc.contains it.configuration.subnetId then
      acc ++ [it.configuration.subnetId]
    else acc) []

/-- Stage 3, three-or-more branch, first step: the first non-EC2 subnet
(else the first subnet) becomes Public; returns the map and the assigned
set. -/
def distManyPub (ec2 : List String) (m : List (String × String))
    (sids : List String) : List (String × String) × List String :=
  match sids.filter (fun z => !ec2.contains z) with
  | a :: _ => (dinsert m a "Public", [a])
  | [] =>
    match sids with
    | b :: _ => (dinsert m b "Public", [b])
    | [] => (m, [])

/-- Stage 3, three-or-more branch, second step: when a database exists,
one further subnet (preferring non-EC2, else the last in order) becomes
Isolated. -/
def distManyIso (hasRds : Bool) (ec2 : List String) (sids : List String)
    (st : List (String × String) × List String) :
    List (String × String) × List String :=
  if hasRds then
    match (sids.filter (fun z => !ec2.contains z)).find?
        (fun z => !st.2.contains z) with
    | some a => (dinsert st.1 a "Isolated", st.2 ++ [a])
    | none =>
      match sids.reverse.find? (fun z => !st.2.contains z) with
      | some a => (dinsert st.1 a "Isolated", st.2 ++ [a])
      | none => st
  else st

/-- Stage 3, three-or-more branch: one non-EC2 subnet becomes Public, one
further subnet Isolated when a database exists, the rest Private. -/
def distMany (hasRds : Bool) (ec2 : List String) (m : List (String × String))
    (sids : List String) : List (String × String) :=
  let st := distManyIso hasRds ec2 sids (distManyPub ec2 m sids)
  sids.foldl (fun m z => if st.2.contains z then m else dinsert m z "Private") st.1

/-- Stage 3, two-subnet branch: when an Internet Gateway or NAT Gateway
exists anywhere in the snapshot, the subnet without compute becomes Public
and the one with compute Private; else the first subnet becomes Public. -/
def distTwo (hasIgw hasNat : Bool) (ec2 : List String)
    (m : List (String × String)) (x y : String) : List (String × String) :=
  if hasIgw || hasNat then
    match [x, y].filter (fun z => !ec2.contains z),
        [x, y].filter (fun z => ec2.contains z) with
    | a :: _, b :: _ => dinsert (dinsert m a "Public") b "Private"
    | _, _ => dinsert (dinsert m x "Public") y "Private"
  else dinsert (dinsert m x "Public") y "Private"

/-- Stage 3, per-availability-zone distribution. -/
def distAz (hasIgw hasNat hasRds : Bool) (ec2 : List String)
    (m : List (String × String)) (sids : List String) : List (String × String) :=
  match sids with
  | [x] => dinsert m x "Private"
  | [x, y] => distTwo hasIgw hasNat ec2 m x y
  | other => distMany hasRds ec2 m other

/-- Stage 3 (structural last resort): distribute the VPC's subnets by
availability zone, then ensure the `_main` default. -/
def stage3Fold (s : Snapshot) (vpcId : String) (m2 : List (String × String)) :
    List (String × String) :=
  (azGroup s vpcId).foldl (fun m p =>
    distAz (!(byType "AWS::EC2::InternetGateway" s).isEmpty)
      (!(byType "AWS::EC2::NatGateway" s).isEmpty)
      (!(byType "AWS::RDS::DBInstance" s).isEmpty)
      (ec2Subnets s vpcId) m p.2) m2

def stage3Map (s : Snapshot) (vpcId : String) (m2 : List (String × String)) :
    List (String × String) :=
  if (dget? (stage3Fold s vpcId m2) "_main").isNone then
    dinsert (stage3Fold s vpcId m2) "_main" "Private"
  else stage3Fold s vpcId m2

/-- `AWSConfigParser._build_subnet_tier_map`: the three-stage cascade with
all-or-nothing cutover on real (non-`_main`) entries. -/
def buildSubnetTierMap (s : Snapshot) (vpcId : String) : List (String × String) :=
  if (stage1 s vpcId).any (fun p => p.1 != "_main") then stage1 s vpcId
  else if (stage2Map s vpcId (stage1 s vpcId)).any (fun p => p.1 != "_main") then
    (if (dget? (stage2Map s vpcId (stage1 s vpcId)) "_main").isNone then
      dinsert (stage2Map s vpcId (stage1 s vpcId)) "_main" "Private"
    else stage2Map s vpcId (stage1 s vpcId))
  else stage3Map s vpcId (stage2Map s vpcId (stage1 s vpcId))

/-! ## `AWSConfigParser.get_subnets_for_vpc` -/

/-- `needle in hay` on Python strings. -/
def strHas (hay needle : String) : Bool :=
  strHasL needle.data hay.data
where
  strHasL (needle : List Char) : List Char → Bool
    | [] => needle.isEmpty
    | c :: t => needle.isPrefixOf (c :: t) || strHasL needle t

/-- The name-tag substring heuristic of `get_subnets_for_vpc`. -/
def nameTierOf (nameTag : String) : String :=
  if strHas (strLower nameTag) "public" then "Public"
  else if strHas (strLower nameTag) "isolated" || strHas (strLower nameTag) "db" ||
      strHas (strLower nameTag) "data" then "Isolated"
  else if strHas (strLower nameTag) "private" then "Private"
  else ""

/-- The tier cascade of `get_subnets_for_vpc`: explicit Tier tag, then the
classifier map, then the name heuristic, then `mapPublicIpOnLaunch`, then
the default tier. -/
def pickTier (tagTier mapTier nameTier : String) (mapPub : Bool)
    (defTier : String) : String :=
  if tagTier != "" then tagTier
  else if mapTier != "" then mapTier
  else if nameTier != "" then nameTier
  else if mapPub then "Public"
  else defTier

structure SubnetOut where
  id : String
  name : String
  cidr : String
  az : String
  tier : String
deriving DecidableEq

/-- The VPC a subnet item resolves to inside `get_subnets_for_vpc`:
configuration owner, relationships, then the reverse-engineered map. -/
def subnetItemVpc (s2v : List (String × String)) (it : Item) : String :=
  if it.configuration.vpcId != "" then it.configuration.vpcId
  else if getRelatedVpc it != "" then getRelatedVpc it
  else dgetD s2v it.resourceId ""

/-- The CIDR cascade of `get_subnets_for_vpc`: configuration, supplementary
configuration (direct field, then association set), resource name
containing a slash, then the IP-derived map. -/
def subnetCidrOf (cidrMap : List (String × String)) (it : Item) : String :=
  let cidr1 :=
    if it.configuration.cidrBlock != "" then it.configuration.cidrBlock
    else if it.suppCidrBlock != "" then it.suppCidrBlock
    else (it.suppCidrAssocs.find? (fun cb => cb != "")).getD ""
  let cidr2 := if cidr1 != "" then cidr1
    else if strHas it.resourceName "/" then it.resourceName else ""
  if cidr2 != "" then cidr2 else dgetD cidrMap it.resourceId ""

/-- The record built for one subnet by `get_subnets_for_vpc`. -/
def subnetRecord (tierMap cidrMap : List (String × String)) (defaultTier : String)
    (it : Item) : SubnetOut :=
  { id := it.resourceId,
    name := dgetD it.tags "Name" it.resourceId,
    cidr := subnetCidrOf cidrMap it,
    az := if it.configuration.availabilityZone != "" then
      it.configuration.availabilityZone else it.availabilityZone,
    tier := pickTier (dgetD it.tags "Tier" "") (dgetD tierMap it.resourceId "")
      (nameTierOf (dgetD it.tags "Name" "")) it.configuration.mapPublicIpOnLaunch
      defaultTier }

/-- One iteration of the subnet loop of `get_subnets_for_vpc`: `none` when
the item does not resolve to the requested VPC. -/
def subnetOut (vpcId : String) (tierMap s2v cidrMap : List (String × String))
    (defaultTier : String) (it : Item) : Option SubnetOut :=
  if subnetItemVpc s2v it != vpcId then none
  else some (subnetRecord tierMap cidrMap defaultTier it)

/-- `AWSConfigParser.get_subnets_for_vpc`. -/
def getSubnetsForVpc (s : Snapshot) (vpcId : String) : List SubnetOut :=
  let tierMap := buildSubnetTierMap s vpcId
  let defaultTier := dgetD tierMap "_main" "Private"
  let s2v := buildSubnetVpcMap s
  let cidrMap := buildSubnetCidrMap s
  (byType "AWS::EC2::Subnet" s).filterMap
    (subnetOut vpcId tierMap s2v cidrMap defaultTier)

/-! ## `AWSConfigParser.get_sg_connections` -/

structure SgConn where
  from_sg : String
  to_sg : String
  to_sg_name : String
  port : String
  protocol : String
  description : String
deriving DecidableEq

/-- `AWSConfigParser.get_sg_connections`.  The Python body reads
`pair["groupId"]` with bracket access (unlike every other field access in
the file, which uses `.get`), so a `userIdGroupPairs` entry without a
`groupId` key raises `KeyError`; the model surfaces that as `.error`. -/
def getSgConnections (s : Snapshot) : Except String (List SgConn) :=
  (byType "AWS::EC2::SecurityGroup" s).foldlM (fun acc it =>
    let c := it.configuration
    let sgId := c.groupId.getD it.resourceId
    c.ipPermissions.foldlM (fun acc rule =>
      rule.userIdGroupPairs.foldlM (fun acc pair =>
        match pair.groupId with
        | none => Except.error "KeyError: groupId"
        | some g => Except.ok (acc ++
            [{ from_sg := g, to_sg := sgId, to_sg_name := c.groupName,
               port := rule.fromPort, protocol := rule.ipProtocol,
               description := pair.description }])) acc) acc) []

/-! ## Network-selection scoring (C3) -/

/-- The VPC-resolution used by `get_albs_for_vpc` for one load balancer:
configuration owner, relationships, then matching the ALB's subnets
against the resolved subnet-to-VPC map. -/
def albVpcOf (s : Snapshot) (it : Item) : String :=
  let c := it.configuration
  if c.vpcId != "" then c.vpcId
  else if getRelatedVpc it != "" then getRelatedVpc it
  else
    let s2v := buildSubnetVpcMap s
    ((c.availabilityZones.filterMap (fun az =>
      if az.subnetId != "" then dget? s2v az.subnetId else none)).head?).getD ""

/-- The network-selection score as the spec's words state it (a second
definition written from the spec for comparison with the code's
`vpcCounts`): subnets resolved to the network, plus 10 per load balancer in
the network, plus 5 per database in the network, plus 10 per compute
instance whose configuration names the network. -/
def specNetworkScore (s : Snapshot) (vpc : String) : Nat :=
  ((buildSubnetVpcMap s).filter (fun p => p.2 == vpc)).length
  + 10 * ((byType "AWS::ElasticLoadBalancingV2::LoadBalancer" s).filter
      (fun it => albVpcOf s it == vpc)).length
  + 5 * ((rdsStage123 s).filter (fun p => p.2 == vpc)).length
  + 10 * ((byType "AWS::EC2::Instance" s).filter
      (fun it => it.configuration.vpcId == vpc)).length

/-- The score the code actually computes in `_get_primary_vpc_id`:
subnets resolved to the network, plus 10 per EC2 instance whose
configuration names the network (no load-balancer or database terms). -/
def codeScore (s : Snapshot) (vpc : String) : Nat :=
  ((buildSubnetVpcMap s).filter (fun p => p.2 == vpc)).length
  + 10 * ((byType "AWS::EC2::Instance" s).filter
      (fun it => it.configuration.vpcId != "" && it.configuration.vpcId == vpc)).length

/-! ## Association-list and fold lemmas -/

theorem dget?_nil {α : Type} (k : String) : dget? ([] : List (String × α)) k = none := rfl

theorem dget?_cons {α : Type} (p : String × α) (t : List (String × α)) (k : String) :
    dget? (p :: t) k = if p.1 == k then some p.2 else dget? t k := by
  unfold dget?
  simp only [List.find?]
  by_cases h : (p.1 == k) = true
  · rw [if_pos h, h]; rfl
  · rw [if_neg h, Bool.of_not_eq_true h]

theorem dget?_dinsert_self {α : Type} (m : List (String × α)) (k : String) (v : α) :
    dget? (dinsert m k v) k = some v := by
  induction m with
  | nil => simp [dinsert, dget?_cons]
  | cons p t ih =>
    by_cases h : (p.1 == k) = true
    · show dget? (if p.1 == k then (p.1, v) :: t else p :: dinsert t k v) k = some v
      rw [if_pos h, dget?_cons]
      rw [if_pos h]
    · show dget? (if p.1 == k then (p.1, v) :: t else p :: dinsert t k v) k = some v
      rw [if_neg h, dget?_cons, if_neg h]
      exact ih

theorem dget?_dinsert_ne {α : Type} (m : List (String × α)) (k k' : String) (v : α)
    (h : k' ≠ k) : dget? (dinsert m k v) k' = dget? m k' := by
  induction m with
  | nil =>
    show dget? [(k, v)] k' = none
    rw [dget?_cons]
    rw [if_neg (by simpa using fun e => h e.symm)]
    rfl
  | cons p t ih =>
    by_cases hp : (p.1 == k) = true
    · show dget? (if p.1 == k then (p.1, v) :: t else p :: dinsert t k v) k' = _
      rw [if_pos hp, dget?_cons, dget?_cons]
      have hp1 : p.1 = k := by simpa using hp
      have hno : ¬ ((p.1 == k') = true) := by
        intro hc
        have hc' : p.1 = k' := by simpa using hc
        exact h (by rw [← hc', hp1])
      rw [if_neg hno, if_neg hno]
    · show dget? (if p.1 == k then (p.1, v) :: t else p :: dinsert t k v) k' = _
      rw [if_neg hp, dget?_cons, dget?_cons]
      by_cases hp' : (p.1 == k') = true
      · rw [if_pos hp', if_pos hp']
      · rw [if_neg hp', if_neg hp']
        exact ih

theorem mem_dinsert {α : Type} {m : List (String × α)} {k : String} {v : α}
    {p : String × α} (h : p ∈ dinsert m k v) : p ∈ m ∨ p.2 = v := by
  induction m with
  | nil =>
    rcases List.mem_singleton.mp h with rfl
    exact Or.inr rfl
  | cons q t ih =>
    by_cases hq : (q.1 == k) = true
    · rw [show dinsert (q :: t) k v = (q.1, v) :: t by
        show (if q.1 == k then _ else _) = _; rw [if_pos hq]] at h
      rcases List.mem_cons.mp h with rfl | h'
      · exact Or.inr rfl
      · exact Or.inl (List.mem_cons_of_mem q h')
    · rw [show dinsert (q :: t) k v = q :: dinsert t k v by
        show (if q.1 == k then _ else _) = _; rw [if_neg hq]] at h
      rcases List.mem_cons.mp h with rfl | h'
      · exact Or.inl (List.mem_cons_self _ _)
      · rcases ih h' with h1 | h2
        · exact Or.inl (List.mem_cons_of_mem q h1)
        · exact Or.inr h2

theorem dmem_of_dget? {α : Type} {m : List (String × α)} {k : String} {v : α}
    (h : dget? m k = some v) : (k, v) ∈ m := by
  induction m with
  | nil => cases h
  | cons p t ih =>
    rw [dget?_cons] at h
    by_cases hp : (p.1 == k) = true
    · rw [if_pos hp] at h
      have h1 : p.1 = k := by simpa using hp
      have h2 : p.2 = v := by injection h
      have h3 : (k, v) = p := by
        rw [← h1, ← h2]
      rw [h3]
      exact List.mem_cons_self p t
    · rw [if_neg hp] at h
      exact List.mem_cons_of_mem p (ih h)

theorem foldl_preserve {α β : Type} (f : β → α → β) (P : β → Prop) :
    ∀ (l : List α) (b : β), (∀ b a, a ∈ l → P b → P (f b a)) → P b → P (l.foldl f b)
  | [], b, _, hb => hb
  | a :: t, b, h, hb =>
    foldl_preserve f P t (f b a) (fun b' a' ha' => h b' a' (List.mem_cons_of_mem a ha'))
      (h b a (List.mem_cons_self a t) hb)

theorem foldl_keep {α : Type} (f : List (String × String) → α → List (String × String))
    (k : String) :
    ∀ (l : List α) (m : List (String × String)),
      (∀ a ∈ l, ∀ m', dget? (f m' a) k = dget? m' k) →
      dget? (l.foldl f m) k = dget? m k
  | [], m, _ => rfl
  | a :: t, m, h => by
    rw [List.foldl_cons, foldl_keep f k t (f m a)
      (fun a' ha' => h a' (List.mem_cons_of_mem a ha'))]
    exact h a (List.mem_cons_self a t) m

theorem foldl_stays {α : Type} (f : List (String × String) → α → List (String × String))
    (k : String) (tv : String) :
    ∀ (l : List α) (m : List (String × String)),
      (∀ a ∈ l, ∀ m', dget? (f m' a) k = dget? m' k ∨ dget? (f m' a) k = some tv) →
      dget? m k = some tv → dget? (l.foldl f m) k = some tv
  | [], _, _, hm => hm
  | a :: t, m, h, hm => by
    rw [List.foldl_cons]
    refine foldl_stays f k tv t (f m a)
      (fun a' ha' => h a' (List.mem_cons_of_mem a ha')) ?_
    rcases h a (List.mem_cons_self a t) m with h1 | h1
    · rw [h1]; exact hm
    · exact h1

theorem foldl_write {α : Type} (f : List (String × String) → α → List (String × String))
    (k : String) (tv : String) :
    ∀ (l : List α) (m : List (String × String)),
      (∀ a ∈ l, (∀ m', dget? (f m' a) k = dget? m' k) ∨
                (∀ m', dget? (f m' a) k = some tv)) →
      (∃ a ∈ l, ∀ m', dget? (f m' a) k = some tv) →
      dget? (l.foldl f m) k = some tv
  | [], _, _, hex => absurd hex (by simp)
  | a :: t, m, h, hex => by
    rw [List.foldl_cons]
    rcases h a (List.mem_cons_self a t) with h1 | h1
    · rcases hex with ⟨a', ha', hw⟩
      rcases List.mem_cons.mp ha' with rfl | ha''
      · have h0 := h1 []
        have h0' := hw []
        rw [h0'] at h0
        cases h0
      · exact foldl_write f k tv t (f m a)
          (fun b hb => h b (List.mem_cons_of_mem a hb)) ⟨a', ha'', hw⟩
    · refine foldl_stays f k tv t (f m a) ?_ (h1 m)
      intro b hb m'
      rcases h b (List.mem_cons_of_mem a hb) with h2 | h2
      · exact Or.inl (h2 m')
      · exact Or.inr (h2 m')

/-! ## Properties of the routing stage -/

/-- The three tier constants. -/
def isTier (t : String) : Bool :=
  t == "Public" || t == "Private" || t == "Isolated"

theorem isTier_rtTier (c : Config) : isTier (rtTier c) = true := by
  unfold rtTier
  simp only []
  split_ifs <;> rfl

theorem ne_empty_of_isTier {t : String} (h : isTier t = true) : t ≠ "" := by
  have h' : (t = "Public" ∨ t = "Private") ∨ t = "Isolated" := by
    simpa [isTier] using h
  rcases h' with h' | rfl
  case inr => decide
  rcases h' with rfl | rfl <;> decide

theorem stage1Assoc_keep (tier : String) (m : List (String × String)) (a : RtAssoc)
    (k : String) (h1 : a.subnetId ≠ k) (h2 : k ≠ "_main") :
    dget? (stage1Assoc tier m a) k = dget? m k := by
  unfold stage1Assoc
  split_ifs with hs hm
  · exact dget?_dinsert_ne m a.subnetId k tier (fun e => h1 e.symm)
  · exact dget?_dinsert_ne m "_main" k tier h2
  · rfl

theorem stage1Assoc_write_or (tier : String) (m : List (String × String)) (a : RtAssoc)
    (k : String) :
    dget? (stage1Assoc tier m a) k = dget? m k ∨
    dget? (stage1Assoc tier m a) k = some tier := by
  unfold stage1Assoc
  split_ifs with hs hm
  · by_cases he : a.subnetId = k
    · exact Or.inr (he ▸ dget?_dinsert_self m a.subnetId tier)
    · exact Or.inl (dget?_dinsert_ne m a.subnetId k tier (fun e => he e.symm))
  · by_cases he : "_main" = k
    · exact Or.inr (he ▸ dget?_dinsert_self m "_main" tier)
    · exact Or.inl (dget?_dinsert_ne m "_main" k tier (fun e => he e.symm))
  · exact Or.inl rfl

theorem stage1_inner_write (tier : String) (sid : String) (hsidm : sid ≠ "_main")
    (hne : sid ≠ "") :
    ∀ (l : List RtAssoc) (m : List (String × String)),
      sid ∈ l.map (·.subnetId) →
      dget? (l.foldl (stage1Assoc tier) m) sid = some tier
  | [], _, h => absurd h (by simp)
  | a :: t, m, h => by
    by_cases ha : a.subnetId = sid
    · rw [List.foldl_cons]
      refine foldl_stays (stage1Assoc tier) sid tier t (stage1Assoc tier m a)
        (fun a' _ m' => stage1Assoc_write_or tier m' a' sid) ?_
      unfold stage1Assoc
      rw [if_pos (by rw [ha]; simpa using hne)]
      rw [ha]
      exact dget?_dinsert_self m sid tier
    · rw [List.foldl_cons]
      have hmem : sid ∈ t.map (·.subnetId) := by
        rcases List.mem_map.mp h with ⟨x, hx, hxe⟩
        rcases List.mem_cons.mp hx with rfl | hx'
        · exact absurd hxe ha
        · exact List.mem_map.mpr ⟨x, hx', hxe⟩
      exact stage1_inner_write tier sid hsidm hne t _ hmem

theorem stage1_inner_keep (tier : String) (sid : String) (hsidm : sid ≠ "_main")
    (l : List RtAssoc) (m : List (String × String))
    (h : ¬ sid ∈ l.map (·.subnetId)) :
    dget? (l.foldl (stage1Assoc tier) m) sid = dget? m sid :=
  foldl_keep _ sid l m (fun a ha m' =>
    stage1Assoc_keep tier m' a sid
      (fun e => h (List.mem_map.mpr ⟨a, ha, e⟩)) hsidm)

theorem stage1Step_write (vpcId : String) (sid : String) (it : Item)
    (hres : rtVpcOf it = vpcId) (hne : sid ≠ "") (hsidm : sid ≠ "_main")
    (hlist : sid ∈ (cfgAssocs it.configuration).map (·.subnetId))
    (m : List (String × String)) :
    dget? (stage1Step vpcId m it) sid = some (rtTier it.configuration) := by
  unfold stage1Step
  rw [if_neg (by simp [hres])]
  exact stage1_inner_write _ sid hsidm hne _ m hlist

theorem stage1Step_keep (vpcId : String) (sid : String) (it : Item)
    (hsidm : sid ≠ "_main")
    (h : rtVpcOf it ≠ vpcId ∨ ¬ sid ∈ (cfgAssocs it.configuration).map (·.subnetId))
    (m : List (String × String)) :
    dget? (stage1Step vpcId m it) sid = dget? m sid := by
  unfold stage1Step
  rcases h with h | h
  · rw [if_pos (by simpa using h)]
  · by_cases hres : (rtVpcOf it != vpcId) = true
    · rw [if_pos hres]
    · rw [if_neg hres]
      exact stage1_inner_keep _ sid hsidm _ m h

theorem stage1_lookup_unique (s : Snapshot) (vpcId : String) (rt : Item) (sid : String)
    (hmem : rt ∈ byType "AWS::EC2::RouteTable" s)
    (hres : rtVpcOf rt = vpcId)
    (hne : sid ≠ "") (hsidm : sid ≠ "_main")
    (hlist : sid ∈ (cfgAssocs rt.configuration).map (·.subnetId))
    (huniq : ∀ it ∈ byType "AWS::EC2::RouteTable" s, rtVpcOf it = vpcId →
      sid ∈ (cfgAssocs it.configuration).map (·.subnetId) → it = rt) :
    dget? (stage1 s vpcId) sid = some (rtTier rt.configuration) := by
  unfold stage1
  refine foldl_write (stage1Step vpcId) sid (rtTier rt.configuration) _ []
    (fun it hit => ?_)
    ⟨rt, hmem, fun m => stage1Step_write vpcId sid rt hres hne hsidm hlist m⟩
  by_cases h1 : rtVpcOf it = vpcId
  · by_cases h2 : sid ∈ (cfgAssocs it.configuration).map (·.subnetId)
    · have he : it = rt := huniq it hit h1 h2
      subst he
      exact Or.inr (fun m => stage1Step_write vpcId sid it h1 hne hsidm h2 m)
    · exact Or.inl (fun m => stage1Step_keep vpcId sid it hsidm (Or.inr h2) m)
  · exact Or.inl (fun m => stage1Step_keep vpcId sid it hsidm (Or.inl h1) m)

theorem buildMap_of_real (s : Snapshot) (vpcId : String)
    (h : (stage1 s vpcId).any (fun p => p.1 != "_main") = true) :
    buildSubnetTierMap s vpcId = stage1 s vpcId := by
  unfold buildSubnetTierMap
  rw [if_pos h]

theorem any_real_of_lookup {s : Snapshot} {vpcId sid v : String}
    (h : dget? (stage1 s vpcId) sid = some v) (hsid : sid ≠ "_main") :
    (stage1 s vpcId).any (fun p => p.1 != "_main") = true :=
  List.any_eq_true.mpr ⟨(sid, v), dmem_of_dget? h, by simpa using hsid⟩

/-! ## Properties of the subnet query -/

theorem pickTier_map_hit (tagT mapT nameT : String) (pub : Bool) (dt : String)
    (h0 : tagT = "") (h : mapT ≠ "") :
    pickTier tagT mapT nameT pub dt = mapT := by
  unfold pickTier
  rw [if_neg (by simp [h0]), if_pos (by simpa using h)]

theorem pickTier_defaulted (tagT mapT nameT : String) (pub : Bool) (dt : String)
    (h0 : tagT = "") (h1 : mapT = "") (h2 : nameT = "") (h3 : pub = false) :
    pickTier tagT mapT nameT pub dt = dt := by
  unfold pickTier
  rw [if_neg (by simp [h0]), if_neg (by simp [h1]), if_neg (by simp [h2]), h3]
  rfl

theorem subnetOut_some {vpcId : String} {tm s2v cm : List (String × String)}
    {dt : String} {it : Item} {o : SubnetOut}
    (h : subnetOut vpcId tm s2v cm dt it = some o) :
    o.id = it.resourceId ∧
    o.tier = pickTier (dgetD it.tags "Tier" "") (dgetD tm it.resourceId "")
      (nameTierOf (dgetD it.tags "Name" "")) it.configuration.mapPublicIpOnLaunch dt := by
  unfold subnetOut at h
  split at h
  · cases h
  · have h' := Option.some.inj h
    rw [← h']
    exact ⟨rfl, rfl⟩

theorem subnetOut_vpc {vpcId : String} {tm s2v cm : List (String × String)}
    {dt : String} {it : Item} {o : SubnetOut}
    (h : subnetOut vpcId tm s2v cm dt it = some o) :
    subnetItemVpc s2v it = vpcId := by
  unfold subnetOut at h
  split at h
  · cases h
  · rename_i hc
    simpa using hc

theorem mem_getSubnets {s : Snapshot} {vpcId : String} {o : SubnetOut}
    (h : o ∈ getSubnetsForVpc s vpcId) :
    ∃ it, it ∈ byType "AWS::EC2::Subnet" s ∧
      subnetOut vpcId (buildSubnetTierMap s vpcId) (buildSubnetVpcMap s)
        (buildSubnetCidrMap s)
        (dgetD (buildSubnetTierMap s vpcId) "_main" "Private") it = some o := by
  have h' : o ∈ (byType "AWS::EC2::Subnet" s).filterMap
      (subnetOut vpcId (buildSubnetTierMap s vpcId) (buildSubnetVpcMap s)
        (buildSubnetCidrMap s)
        (dgetD (buildSubnetTierMap s vpcId) "_main" "Private")) := h
  rcases List.mem_filterMap.mp h' with ⟨it, hit, heq⟩
  exact ⟨it, hit, heq⟩

/-! ## Claim C1 -/

/-- C1 amended: a route table resolved to the VPC assigns its tier
(`Public` for a default route to an Internet Gateway, `Private` for a
default route to a NAT Gateway or any other target, `Isolated` with no
default route - this is `rtTier`) to every subnet id in its associations,
provided no other route table resolved to the same VPC also lists that
subnet id (the loop lets the last-enumerated table win); and for such a
subnet with no explicit Tier tag, `get_subnets_for_vpc` reports exactly
this tier. -/
theorem c1_routing_tier (s : Snapshot) (vpcId : String) (rt : Item) (sid : String)
    (hmem : rt ∈ byType "AWS::EC2::RouteTable" s)
    (hres : rtVpcOf rt = vpcId)
    (hne : sid ≠ "") (hsidm : sid ≠ "_main")
    (hlist : sid ∈ (cfgAssocs rt.configuration).map (·.subnetId))
    (huniq : ∀ it ∈ byType "AWS::EC2::RouteTable" s, rtVpcOf it = vpcId →
      sid ∈ (cfgAssocs it.configuration).map (·.subnetId) → it = rt)
    (htag : ∀ it ∈ byType "AWS::EC2::Subnet" s, it.resourceId = sid →
      dgetD it.tags "Tier" "" = "") :
    dget? (buildSubnetTierMap s vpcId) sid = some (rtTier rt.configuration) ∧
    ∀ o ∈ getSubnetsForVpc s vpcId, o.id = sid → o.tier = rtTier rt.configuration := by
  have hlook := stage1_lookup_unique s vpcId rt sid hmem hres hne hsidm hlist huniq
  have hmap := buildMap_of_real s vpcId (any_real_of_lookup hlook hsidm)
  have hmt : dgetD (buildSubnetTierMap s vpcId) sid "" = rtTier rt.configuration := by
    unfold dgetD
    rw [hmap, hlook]
    rfl
  refine ⟨by rw [hmap]; exact hlook, ?_⟩
  intro o ho hid
  rcases mem_getSubnets ho with ⟨it0, hit0, hout⟩
  rcases subnetOut_some hout with ⟨hoid, hotier⟩
  have hsid0 : it0.resourceId = sid := hoid.symm.trans hid
  have htag0 : dgetD it0.tags "Tier" "" = "" := htag it0 hit0 hsid0
  rw [hotier, hsid0]
  rw [pickTier_map_hit _ _ _ _ _ htag0
    (by rw [hmt]; exact ne_empty_of_isTier (isTier_rtTier rt.configuration))]
  exact hmt

/-- Route table with a default route to an Internet Gateway, associated to
`sub-1`. -/
def c1TableIgw : Item :=
  { resourceType := "AWS::EC2::RouteTable", resourceId := "rtb-1",
    configuration :=
      { vpcId := "vpc-1",
        routes := some [{ destinationCidrBlock := some "0.0.0.0/0",
                          gatewayId := "igw-1" }],
        associations := some [{ subnetId := "sub-1" }] } }

/-- Route table with no default route, also associated to `sub-1`. -/
def c1TableEmpty : Item :=
  { resourceType := "AWS::EC2::RouteTable", resourceId := "rtb-2",
    configuration :=
      { vpcId := "vpc-1", routes := some [],
        associations := some [{ subnetId := "sub-1" }] } }

def cexC1 : Snapshot := [c1TableIgw, c1TableEmpty]

/-- C1 counterexample: `rtb-1` is resolved to `vpc-1`, has a default route
to an Internet Gateway and lists `sub-1`, yet the routing stage assigns
`sub-1` the tier `Isolated` (the later table `rtb-2` overwrites it), not
`Public` as the claim states. -/
theorem c1_counterexample :
    c1TableIgw ∈ byType "AWS::EC2::RouteTable" cexC1 ∧
    rtVpcOf c1TableIgw = "vpc-1" ∧
    rtTier c1TableIgw.configuration = "Public" ∧
    "sub-1" ∈ (cfgAssocs c1TableIgw.configuration).map (·.subnetId) ∧
    dget? (buildSubnetTierMap cexC1 "vpc-1") "sub-1" = some "Isolated" :=
  ⟨by decide, by decide, by decide, by decide, by decide⟩

/-- Subnet item for the C1 witness snapshot. -/
def c1Subnet : Item :=
  { resourceType := "AWS::EC2::Subnet", resourceId := "sub-1",
    configuration := { vpcId := "vpc-1" } }

def witC1 : Snapshot := [c1TableIgw, c1Subnet]

/-- Witness for the amended C1 theorem at a concrete snapshot. -/
theorem c1_witness :
    dget? (buildSubnetTierMap witC1 "vpc-1") "sub-1" =
      some (rtTier c1TableIgw.configuration) ∧
    ∀ o ∈ getSubnetsForVpc witC1 "vpc-1", o.id = "sub-1" →
      o.tier = rtTier c1TableIgw.configuration :=
  c1_routing_tier witC1 "vpc-1" c1TableIgw "sub-1" (by decide) (by decide)
    (by decide) (by decide) (by decide) (by decide) (by decide)

/-! ## Claim C2 -/

/-- C2 amended: if the routing stage classifies at least one subnet id
(not counting the `_main` sentinel), the classifier's map is exactly the
routing stage's map - the service-placement and structural stages
contribute nothing; and a subnet of that VPC absent from the routing map
that also has no explicit Tier tag, no tier-indicating name substring and
no `mapPublicIpOnLaunch` flag receives the `_default` tier. -/
theorem c2_routing_authority (s : Snapshot) (vpcId : String)
    (h1 : (stage1 s vpcId).any (fun p => p.1 != "_main") = true) :
    buildSubnetTierMap s vpcId = stage1 s vpcId ∧
    ∀ o ∈ getSubnetsForVpc s vpcId,
      dget? (stage1 s vpcId) o.id = none →
      (∀ it ∈ byType "AWS::EC2::Subnet" s, it.resourceId = o.id →
        dgetD it.tags "Tier" "" = "" ∧ nameTierOf (dgetD it.tags "Name" "") = "" ∧
        it.configuration.mapPublicIpOnLaunch = false) →
      o.tier = dgetD (buildSubnetTierMap s vpcId) "_main" "Private" := by
  have hmap := buildMap_of_real s vpcId h1
  refine ⟨hmap, ?_⟩
  intro o ho hnone hclean
  rcases mem_getSubnets ho with ⟨it0, hit0, hout⟩
  rcases subnetOut_some hout with ⟨hoid, hotier⟩
  obtain ⟨ht, hn, hp⟩ := hclean it0 hit0 hoid.symm
  rw [hotier]
  have hmt : dgetD (buildSubnetTierMap s vpcId) it0.resourceId "" = "" := by
    unfold dgetD
    rw [hmap]
    rw [show dget? (stage1 s vpcId) it0.resourceId = none by rw [← hoid]; exact hnone]
    rfl
  exact pickTier_defaulted _ _ _ _ _ ht hmt hn hp

/-- Route table for the C2 snapshots. -/
def c2Table : Item :=
  { resourceType := "AWS::EC2::RouteTable", resourceId := "rtb-1",
    configuration :=
      { vpcId := "vpc-1",
        routes := some [{ destinationCidrBlock := some "0.0.0.0/0",
                          gatewayId := "igw-1" }],
        associations := some [{ subnetId := "sub-1" }] } }

/-- Subnet associated to the route table. -/
def c2Sub1 : Item :=
  { resourceType := "AWS::EC2::Subnet", resourceId := "sub-1",
    configuration := { vpcId := "vpc-1" } }

/-- Subnet with no route-table association whose Name tag contains
`public`. -/
def c2Sub2 : Item :=
  { resourceType := "AWS::EC2::Subnet", resourceId := "sub-2",
    configuration := { vpcId := "vpc-1" }, tags := [("Name", "public-a")] }

def cexC2 : Snapshot := [c2Table, c2Sub1, c2Sub2]

/-- C2 counterexample: the routing stage classifies `sub-1`, and the
unassociated subnet `sub-2` does not receive the `_default` tier
(`Private`) - the name heuristic of `get_subnets_for_vpc` gives it
`Public`. -/
theorem c2_counterexample :
    buildSubnetTierMap cexC2 "vpc-1" = [("sub-1", "Public")] ∧
    dget? (stage1 cexC2 "vpc-1") "sub-2" = none ∧
    dgetD (buildSubnetTierMap cexC2 "vpc-1") "_main" "Private" = "Private" ∧
    (getSubnetsForVpc cexC2 "vpc-1").map (fun o => (o.id, o.tier)) =
      [("sub-1", "Public"), ("sub-2", "Public")] := by
  exact ⟨by decide, by decide, by decide, by decide⟩

/-- Unassociated subnet with no tags at all. -/
def c2Sub3 : Item :=
  { resourceType := "AWS::EC2::Subnet", resourceId := "sub-3",
    configuration := { vpcId := "vpc-1" } }

def witC2 : Snapshot := [c2Table, c2Sub1, c2Sub3]

/-- Witness for the amended C2 theorem at a concrete snapshot. -/
theorem c2_witness :
    buildSubnetTierMap witC2 "vpc-1" = stage1 witC2 "vpc-1" ∧
    ∀ o ∈ getSubnetsForVpc witC2 "vpc-1", o.id = "sub-3" → o.tier = "Private" := by
  have h := c2_routing_authority witC2 "vpc-1" (by decide)
  refine ⟨h.1, ?_⟩
  intro o ho hid
  have h2 := h.2 o ho (by rw [hid]; decide) (by rw [hid]; decide)
  rw [h2]
  decide

/-! ## Claim C5 -/

theorem foldl_id {α β : Type} (f : β → α → β) (h : ∀ m a, f m a = m) :
    ∀ (l : List α) (m : β), l.foldl f m = m
  | [], _ => rfl
  | a :: t, m => by rw [List.foldl_cons, h m a]; exact foldl_id f h t m

theorem rdsLastStep_empty (m : List (String × String)) (it : Item) :
    rdsLastStep "" m it = m := by
  unfold rdsLastStep
  simp

theorem rdsLastStep_ne (primary : String) (m : List (String × String)) (it : Item)
    (rid : String) (h : it.resourceId ≠ rid) :
    dget? (rdsLastStep primary m it) rid = dget? m rid := by
  unfold rdsLastStep
  split_ifs with hc
  · exact dget?_dinsert_ne m it.resourceId rid primary (fun e => h e.symm)
  · rfl

theorem rdsLastStep_write_or (primary : String) (hp : primary ≠ "")
    (m : List (String × String)) (it : Item) (rid : String) :
    dget? (rdsLastStep primary m it) rid = dget? m rid ∨
    dget? (rdsLastStep primary m it) rid = some primary := by
  by_cases hi : it.resourceId = rid
  · subst hi
    unfold rdsLastStep
    cases hm : dget? m it.resourceId with
    | none =>
      rw [if_pos (by simpa using hp)]
      exact Or.inr (dget?_dinsert_self m it.resourceId primary)
    | some v =>
      rw [if_neg (by simp)]
      exact Or.inl hm
  · exact Or.inl (rdsLastStep_ne primary m it rid hi)

theorem rdsLast_writes (primary : String) (hp : primary ≠ "") (rid : String) :
    ∀ (l : List Item) (m : List (String × String)),
      (dget? m rid = none ∨ dget? m rid = some primary) →
      (∃ it ∈ l, it.resourceId = rid) →
      dget? (l.foldl (rdsLastStep primary) m) rid = some primary
  | [], _, _, hex => absurd hex (by simp)
  | it :: t, m, hinv, hex => by
    rw [List.foldl_cons]
    by_cases hi : it.resourceId = rid
    · refine foldl_stays (rdsLastStep primary) rid primary t (rdsLastStep primary m it)
        (fun a _ m' => rdsLastStep_write_or primary hp m' a rid) ?_
      subst hi
      unfold rdsLastStep
      rcases hinv with hm | hm
      · rw [if_pos (by rw [hm]; simpa using hp)]
        exact dget?_dinsert_self m it.resourceId primary
      · rw [if_neg (by rw [hm]; simp)]
        exact hm
    · have hinv' : dget? (rdsLastStep primary m it) rid = none ∨
          dget? (rdsLastStep primary m it) rid = some primary := by
        rw [rdsLastStep_ne primary m it rid hi]
        exact hinv
      rcases hex with ⟨it', hit', he⟩
      rcases List.mem_cons.mp hit' with rfl | hit''
      · exact absurd he hi
      · exact rdsLast_writes primary hp rid t _ hinv' ⟨it', hit'', he⟩

/-- C5 amended: the last-resort stage of `_build_rds_vpc_map` runs only
when stages 1-3 resolved at least one database (`if rds2vpc:`); in that
case every database unresolved by stages 1-3 is assigned the primary
(highest-scoring) network when one exists, and otherwise it stays
unassigned. -/
theorem c5_rds_last_resort (s : Snapshot) (rid : String)
    (hmem : ∃ it ∈ byType "AWS::RDS::DBInstance" s, it.resourceId = rid)
    (hnone : dget? (rdsStage123 s) rid = none) :
    dget? (buildRdsVpcMap s) rid =
      if rdsStage123 s ≠ [] ∧ getPrimaryVpcId s ≠ "" then some (getPrimaryVpcId s)
      else none := by
  have hbd : buildRdsVpcMap s = (byType "AWS::RDS::DBInstance" s).foldl
      (rdsLastStep (if (rdsStage123 s).isEmpty then "" else getPrimaryVpcId s))
      (rdsStage123 s) := rfl
  rw [hbd]
  by_cases hE : rdsStage123 s = []
  · rw [show (if ((rdsStage123 s).isEmpty : Bool) then "" else getPrimaryVpcId s) = ""
      from by rw [hE]; rfl]
    rw [if_neg (fun hc => hc.1 hE)]
    rw [foldl_id _ rdsLastStep_empty]
    exact hnone
  · have hIE : ((rdsStage123 s).isEmpty : Bool) = false := by
      cases h2 : rdsStage123 s with
      | nil => exact absurd h2 hE
      | cons p t => rfl
    rw [show (if ((rdsStage123 s).isEmpty : Bool) then "" else getPrimaryVpcId s) =
      getPrimaryVpcId s from by rw [hIE]; rfl]
    by_cases hP : getPrimaryVpcId s = ""
    · rw [if_neg (fun hc => hc.2 hP), hP]
      rw [foldl_id _ rdsLastStep_empty]
      exact hnone
    · rw [if_pos ⟨hE, hP⟩]
      exact rdsLast_writes (getPrimaryVpcId s) hP rid _ (rdsStage123 s)
        (Or.inl hnone) hmem

/-- Unresolvable database item (no subnet-group owner, no relationships,
no subnets). -/
def c5Rds : Item := { resourceType := "AWS::RDS::DBInstance", resourceId := "rds-1" }

/-- Subnet that makes `vpc-1` the primary VPC. -/
def c5Subnet : Item :=
  { resourceType := "AWS::EC2::Subnet", resourceId := "sub-1",
    configuration := { vpcId := "vpc-1" } }

def cexC5 : Snapshot := [c5Rds, c5Subnet]

/-- C5 counterexample: `rds-1` is unresolved by stages 1-3 and a
highest-scoring network (`vpc-1`) exists, yet the last resort assigns
nothing, because no database at all was resolved by stages 1-3. -/
theorem c5_counterexample :
    (∃ it ∈ byType "AWS::RDS::DBInstance" cexC5, it.resourceId = "rds-1") ∧
    dget? (rdsStage123 cexC5) "rds-1" = none ∧
    getPrimaryVpcId cexC5 = "vpc-1" ∧
    dget? (buildRdsVpcMap cexC5) "rds-1" = none := by
  refine ⟨⟨c5Rds, by decide, by decide⟩, by decide, by decide, by decide⟩

/-- Database resolvable by stage 1 (explicit subnet-group owner). -/
def c5RdsA : Item :=
  { resourceType := "AWS::RDS::DBInstance", resourceId := "rds-a",
    configuration := { dBSubnetGroup := some { vpcId := "vpc-1" } } }

/-- Database not resolvable by stages 1-3. -/
def c5RdsB : Item := { resourceType := "AWS::RDS::DBInstance", resourceId := "rds-b" }

def witC5 : Snapshot := [c5RdsA, c5RdsB, c5Subnet]

/-- Witness for the amended C5 theorem at a concrete snapshot. -/
theorem c5_witness :
    dget? (buildRdsVpcMap witC5) "rds-b" =
      (if rdsStage123 witC5 ≠ [] ∧ getPrimaryVpcId witC5 ≠ ""
       then some (getPrimaryVpcId witC5) else none) :=
  c5_rds_last_resort witC5 "rds-b" ⟨c5RdsB, by decide, by decide⟩ (by decide)

/-! ## Claim C3 -/

theorem dgetD_cinc_self (m : List (String × Nat)) (k : String) (n : Nat) :
    dgetD (cinc m k n) k 0 = dgetD m k 0 + n := by
  unfold cinc dgetD
  rw [dget?_dinsert_self]
  rfl

theorem dgetD_cinc_ne (m : List (String × Nat)) (k k' : String) (n : Nat)
    (h : k' ≠ k) : dgetD (cinc m k n) k' 0 = dgetD m k' 0 := by
  unfold cinc dgetD
  rw [dget?_dinsert_ne _ _ _ _ h]

theorem subnetCounts_lookup (k : String) :
    ∀ (l : List (String × String)) (m0 : List (String × Nat)),
      dgetD (l.foldl (fun m p => cinc m p.2 1) m0) k 0 =
        dgetD m0 k 0 + (l.filter (fun p => p.2 == k)).length
  | [], m0 => by simp
  | p :: t, m0 => by
    rw [List.foldl_cons, subnetCounts_lookup k t (cinc m0 p.2 1)]
    by_cases hp : p.2 = k
    · rw [List.filter_cons, if_pos (by simpa using hp), hp, dgetD_cinc_self]
      simp only [List.length_cons]
      omega
    · rw [List.filter_cons, if_neg (by simpa using hp),
        dgetD_cinc_ne m0 p.2 k 1 (fun e => hp e.symm)]

theorem instCounts_lookup (k : String) :
    ∀ (l : List Item) (m0 : List (String × Nat)),
      dgetD (l.foldl (fun m it =>
          if it.configuration.vpcId != "" then cinc m it.configuration.vpcId 10
          else m) m0) k 0 =
        dgetD m0 k 0 + 10 * (l.filter (fun it =>
          it.configuration.vpcId != "" && it.configuration.vpcId == k)).length
  | [], m0 => by simp
  | it :: t, m0 => by
    rw [List.foldl_cons, List.filter_cons]
    by_cases h0 : it.configuration.vpcId = ""
    · rw [if_neg (by simp [h0]), if_neg (by simp [h0]),
        instCounts_lookup k t m0]
    · by_cases hk : it.configuration.vpcId = k
      · have hcnd : (it.configuration.vpcId != "" && it.configuration.vpcId == k) = true := by
          simp [hk]
          rw [← hk]
          exact h0
        rw [if_pos (by simpa using h0), if_pos hcnd,
          instCounts_lookup k t _, hk, dgetD_cinc_self]
        simp only [List.length_cons]
        omega
      · rw [if_pos (by simpa using h0), if_neg (by simp [hk]),
          instCounts_lookup k t _,
          dgetD_cinc_ne m0 it.configuration.vpcId k 10 (fun e => hk e.symm)]

theorem vpcCounts_lookup (s : Snapshot) (k : String) :
    dgetD (vpcCounts s) k 0 = codeScore s k := by
  unfold vpcCounts codeScore
  rw [instCounts_lookup, subnetCounts_lookup]
  have h0 : dgetD ([] : List (String × Nat)) k 0 = 0 := rfl
  rw [h0]
  omega

/-- Keys of an association list. -/
def dkeys {α : Type} (m : List (String × α)) : List String := m.map (·.1)

theorem dkeys_dinsert {α : Type} :
    ∀ (m : List (String × α)) (k : String) (v : α),
      dkeys (dinsert m k v) = if k ∈ dkeys m then dkeys m else dkeys m ++ [k]
  | [], k, v => by simp [dinsert, dkeys]
  | p :: t, k, v => by
    by_cases hp : (p.1 == k) = true
    · have hp1 : p.1 = k := by simpa using hp
      rw [show dinsert (p :: t) k v = (p.1, v) :: t by
        show (if p.1 == k then _ else _) = _; rw [if_pos hp]]
      rw [if_pos (by show k ∈ p.1 :: dkeys t; rw [hp1]; exact List.mem_cons_self _ _)]
      rfl
    · have hp1 : p.1 ≠ k := fun e => hp (by simp [e])
      rw [show dinsert (p :: t) k v = p :: dinsert t k v by
        show (if p.1 == k then _ else _) = _; rw [if_neg hp]]
      show p.1 :: dkeys (dinsert t k v) = _
      rw [dkeys_dinsert t k v]
      by_cases hm : k ∈ dkeys t
      · rw [if_pos hm,
          if_pos (by show k ∈ p.1 :: dkeys t; exact List.mem_cons_of_mem _ hm)]
        rfl
      · rw [if_neg hm, if_neg (by
          show ¬ k ∈ p.1 :: dkeys t
          intro hc
          rcases List.mem_cons.mp hc with h1 | h2
          · exact hp1 h1.symm
          · exact hm h2)]
        rfl

theorem nodup_dinsert_keys {α : Type} (m : List (String × α)) (k : String) (v : α)
    (h : (dkeys m).Nodup) : (dkeys (dinsert m k v)).Nodup := by
  rw [dkeys_dinsert]
  by_cases hm : k ∈ dkeys m
  · rwa [if_pos hm]
  · rw [if_neg hm, List.nodup_append]
    exact ⟨h, List.nodup_singleton k, by
      intro x hx hx'
      rcases List.mem_singleton.mp hx' with rfl
      exact hm hx⟩

theorem vpcCounts_nodup (s : Snapshot) : (dkeys (vpcCounts s)).Nodup := by
  unfold vpcCounts
  refine foldl_preserve _ (fun m => (dkeys m).Nodup) _ _
    (fun m it _ hm => ?_) (foldl_preserve _ (fun m => (dkeys m).Nodup) _ []
      (fun m p _ hm => nodup_dinsert_keys _ _ _ hm) List.nodup_nil)
  by_cases h0 : (it.configuration.vpcId != "") = true
  · rw [if_pos h0]
    exact nodup_dinsert_keys _ _ _ hm
  · rw [if_neg h0]
    exact hm

theorem dget?_of_mem_nodup {α : Type} :
    ∀ {m : List (String × α)} {k : String} {v : α},
      (k, v) ∈ m → (dkeys m).Nodup → dget? m k = some v := by
  intro m
  induction m with
  | nil => intro k v hm _; cases hm
  | cons p t ih =>
    intro k v hm hn
    rcases List.mem_cons.mp hm with he | hm'
    · rw [← he, dget?_cons]
      rw [if_pos (by simp)]
    · have hk : k ∈ dkeys t := List.mem_map.mpr ⟨(k, v), hm', rfl⟩
      have hn' : (p.1 :: dkeys t).Nodup := hn
      have hni : ¬ p.1 ∈ dkeys t := (List.nodup_cons.mp hn').1
      have hne : p.1 ≠ k := fun e => hni (show p.1 ∈ dkeys t by rw [e]; exact hk)
      rw [dget?_cons, if_neg (by simpa using hne)]
      exact ih hm' (List.nodup_cons.mp hn').2

theorem maxFold_mem : ∀ (t : List (String × Nat)) (b : String × Nat),
    t.foldl maxStep b = b ∨ t.foldl maxStep b ∈ t
  | [], _ => Or.inl rfl
  | q :: t, b => by
    have hstep : (q :: t).foldl maxStep b = t.foldl maxStep (maxStep b q) := rfl
    rw [hstep]
    by_cases hq : q.2 > b.2
    · have hm : maxStep b q = q := by unfold maxStep; rw [if_pos hq]
      rw [hm]
      rcases maxFold_mem t q with h | h
      · rw [h]; exact Or.inr (List.mem_cons_self q t)
      · exact Or.inr (List.mem_cons_of_mem q h)
    · have hm : maxStep b q = b := by unfold maxStep; rw [if_neg hq]
      rw [hm]
      rcases maxFold_mem t b with h | h
      · exact Or.inl h
      · exact Or.inr (List.mem_cons_of_mem q h)

theorem maxFold_ge : ∀ (t : List (String × Nat)) (b : String × Nat),
    b.2 ≤ (t.foldl maxStep b).2 ∧ ∀ p ∈ t, p.2 ≤ (t.foldl maxStep b).2
  | [], _ => ⟨Nat.le_refl _, fun _ hp => absurd hp (by simp)⟩
  | q :: t, b => by
    have hstep : (q :: t).foldl maxStep b = t.foldl maxStep (maxStep b q) := rfl
    rw [hstep]
    by_cases hq : q.2 > b.2
    · have hm : maxStep b q = q := by unfold maxStep; rw [if_pos hq]
      rw [hm]
      rcases maxFold_ge t q with ⟨h1, h2⟩
      refine ⟨Nat.le_trans (Nat.le_of_lt hq) h1, fun p hp => ?_⟩
      rcases List.mem_cons.mp hp with rfl | hp'
      · exact h1
      · exact h2 p hp'
    · have hm : maxStep b q = b := by unfold maxStep; rw [if_neg hq]
      rw [hm]
      rcases maxFold_ge t b with ⟨h1, h2⟩
      refine ⟨h1, fun p hp => ?_⟩
      rcases List.mem_cons.mp hp with rfl | hp'
      · exact Nat.le_trans (Nat.le_of_not_lt hq) h1
      · exact h2 p hp'

/-- The fold of `max(d, key=d.get)` returns the first entry attaining the
maximum: every entry strictly before it in the list has a strictly smaller
value. -/
theorem maxFold_first : ∀ (t : List (String × Nat)) (b : String × Nat),
    ∃ l1 l2, b :: t = l1 ++ (t.foldl maxStep b) :: l2 ∧
      ∀ p ∈ l1, p.2 < (t.foldl maxStep b).2
  | [], b => ⟨[], [], rfl, fun _ hp => absurd hp (by simp)⟩
  | q :: t, b => by
    have hstep : (q :: t).foldl maxStep b = t.foldl maxStep (maxStep b q) := rfl
    rw [hstep]
    by_cases hq : q.2 > b.2
    · have hm : maxStep b q = q := by unfold maxStep; rw [if_pos hq]
      rw [hm]
      rcases maxFold_first t q with ⟨l1, l2, hdec, hlt⟩
      refine ⟨b :: l1, l2, ?_, ?_⟩
      · show b :: (q :: t) = (b :: l1) ++ (t.foldl maxStep q) :: l2
        rw [List.cons_append, ← hdec]
      · intro p hp
        rcases List.mem_cons.mp hp with rfl | hp'
        · exact Nat.lt_of_lt_of_le hq ((maxFold_ge t q).1)
        · exact hlt p hp'
    · have hm : maxStep b q = b := by unfold maxStep; rw [if_neg hq]
      rw [hm]
      rcases maxFold_first t b with ⟨l1, l2, hdec, hlt⟩
      cases l1 with
      | nil =>
        injection hdec with h1 h2
        refine ⟨[], q :: t, ?_, fun _ hp => absurd hp (by simp)⟩
        show b :: q :: t = (t.foldl maxStep b) :: q :: t
        rw [← h1]
      | cons a l1' =>
        rw [List.cons_append] at hdec
        injection hdec with h1 h2
        have hblt : b.2 < (t.foldl maxStep b).2 := by
          have ha := hlt a (List.mem_cons_self a l1')
          rw [← h1] at ha
          exact ha
        refine ⟨b :: q :: l1', l2, ?_, ?_⟩
        · show b :: q :: t = b :: q :: (l1' ++ (t.foldl maxStep b) :: l2)
          rw [← h2]
        · intro p hp
          rcases List.mem_cons.mp hp with rfl | hp'
          · exact hblt
          · rcases List.mem_cons.mp hp' with rfl | hp''
            · exact Nat.lt_of_le_of_lt (Nat.le_of_not_lt hq) hblt
            · exact hlt p (List.mem_cons_of_mem a hp'')

/-- C3 amended: the score `_get_primary_vpc_id` maximizes is
`codeScore`: (count of subnets resolved to the network) + 10 per compute
instance whose configuration names the network - with no load-balancer or
database terms; the first network reaching the maximum (in counting order)
wins - every network counted before the chosen one has a strictly smaller
score - and when no network has a count the first non-default VPC (else the
first VPC, else the empty string) is chosen. -/
theorem c3_network_scoring (s : Snapshot) :
    (∀ k, dgetD (vpcCounts s) k 0 = codeScore s k) ∧
    (vpcCounts s ≠ [] → ∀ k, codeScore s k ≤ codeScore s (getPrimaryVpcId s)) ∧
    (vpcCounts s ≠ [] → ∃ l1 l2,
      vpcCounts s =
        l1 ++ (getPrimaryVpcId s, codeScore s (getPrimaryVpcId s)) :: l2 ∧
      ∀ p ∈ l1, p.2 < codeScore s (getPrimaryVpcId s)) ∧
    (vpcCounts s = [] → getPrimaryVpcId s =
      (match (byType "AWS::EC2::VPC" s).find? (fun it => !it.configuration.isDefault) with
       | some it => it.resourceId
       | none =>
         match byType "AWS::EC2::VPC" s with
         | it :: _ => it.resourceId
         | [] => "")) := by
  refine ⟨vpcCounts_lookup s, ?_, ?_, ?_⟩
  · intro hne k
    cases hc : vpcCounts s with
    | nil => exact absurd hc hne
    | cons h t =>
      have hprim : getPrimaryVpcId s = (t.foldl maxStep h).1 := by
        unfold getPrimaryVpcId
        rw [hc]
        rfl
      have hresmem : t.foldl maxStep h ∈ vpcCounts s := by
        rw [hc]
        rcases maxFold_mem t h with he | hm
        · rw [he]; exact List.mem_cons_self h t
        · exact List.mem_cons_of_mem h hm
      have hlook : dget? (vpcCounts s) (t.foldl maxStep h).1 =
          some (t.foldl maxStep h).2 :=
        dget?_of_mem_nodup hresmem (vpcCounts_nodup s)
      have hscore : codeScore s (t.foldl maxStep h).1 = (t.foldl maxStep h).2 := by
        rw [← vpcCounts_lookup]
        unfold dgetD
        rw [hlook]
        rfl
      have hk : codeScore s k ≤ (t.foldl maxStep h).2 := by
        rw [← vpcCounts_lookup]
        unfold dgetD
        cases hkk : dget? (vpcCounts s) k with
        | none => simp
        | some v =>
          have hmem : (k, v) ∈ vpcCounts s := dmem_of_dget? hkk
          rw [hc] at hmem
          show v ≤ _
          rcases List.mem_cons.mp hmem with he | hm
          · have hv : v = h.2 := congrArg Prod.snd he
            rw [hv]
            exact (maxFold_ge t h).1
          · exact (maxFold_ge t h).2 (k, v) hm
      rw [hprim, hscore]
      exact hk
  · intro hne
    cases hc : vpcCounts s with
    | nil => exact absurd hc hne
    | cons h t =>
      have hprim : getPrimaryVpcId s = (t.foldl maxStep h).1 := by
        unfold getPrimaryVpcId
        rw [hc]
        rfl
      have hresmem : t.foldl maxStep h ∈ vpcCounts s := by
        rw [hc]
        rcases maxFold_mem t h with he | hm
        · rw [he]; exact List.mem_cons_self h t
        · exact List.mem_cons_of_mem h hm
      have hlook : dget? (vpcCounts s) (t.foldl maxStep h).1 =
          some (t.foldl maxStep h).2 :=
        dget?_of_mem_nodup hresmem (vpcCounts_nodup s)
      have hscore : codeScore s (t.foldl maxStep h).1 = (t.foldl maxStep h).2 := by
        rw [← vpcCounts_lookup]
        unfold dgetD
        rw [hlook]
        rfl
      have hpair : (getPrimaryVpcId s, codeScore s (getPrimaryVpcId s)) =
          t.foldl maxStep h := by
        rw [hprim, hscore]
      rcases maxFold_first t h with ⟨l1, l2, hdec, hlt⟩
      refine ⟨l1, l2, ?_, ?_⟩
      · rw [hpair]
        exact hdec
      · intro p hp
        rw [hprim, hscore]
        exact hlt p hp
  · intro he
    unfold getPrimaryVpcId
    rw [he]

def cexC3 : Snapshot :=
  [ { resourceType := "AWS::EC2::Subnet", resourceId := "sub-a1",
      configuration := { vpcId := "vpc-a" } },
    { resourceType := "AWS::EC2::Subnet", resourceId := "sub-a2",
      configuration := { vpcId := "vpc-a" } },
    { resourceType := "AWS::EC2::Subnet", resourceId := "sub-b1",
      configuration := { vpcId := "vpc-b" } },
    { resourceType := "AWS::ElasticLoadBalancingV2::LoadBalancer",
      resourceId := "alb-1", configuration := { vpcId := "vpc-b" } },
    { resourceType := "AWS::RDS::DBInstance", resourceId := "rds-1",
      configuration := { dBSubnetGroup := some { vpcId := "vpc-b" } } } ]

/-- C3 counterexample: under the claim's scoring formula `vpc-b` (one
subnet, one load balancer, one database: 1 + 10 + 5 = 16) outscores
`vpc-a` (two subnets: 2), yet the code selects `vpc-a`. -/
theorem c3_counterexample :
    getPrimaryVpcId cexC3 = "vpc-a" ∧
    specNetworkScore cexC3 "vpc-a" < specNetworkScore cexC3 "vpc-b" :=
  ⟨by decide, by decide⟩

/-- Witness for the amended C3 theorem at a concrete snapshot. -/
theorem c3_witness :
    dgetD (vpcCounts cexC3) "vpc-b" 0 = codeScore cexC3 "vpc-b" ∧
    (vpcCounts cexC3 ≠ [] ∧
      codeScore cexC3 "vpc-b" ≤ codeScore cexC3 (getPrimaryVpcId cexC3)) ∧
    (∃ l1 l2, vpcCounts cexC3 =
        l1 ++ (getPrimaryVpcId cexC3, codeScore cexC3 (getPrimaryVpcId cexC3)) :: l2 ∧
      ∀ p ∈ l1, p.2 < codeScore cexC3 (getPrimaryVpcId cexC3)) :=
  ⟨(c3_network_scoring cexC3).1 "vpc-b",
   ⟨by decide, (c3_network_scoring cexC3).2.1 (by decide) "vpc-b"⟩,
   (c3_network_scoring cexC3).2.2.1 (by decide)⟩

/-! ## Claim C4 -/

/-- Security group whose single ingress rule has a `userIdGroupPairs`
entry without a `groupId` key. -/
def cexC4 : Snapshot :=
  [ { resourceType := "AWS::EC2::SecurityGroup", resourceId := "sg-1",
      configuration := { ipPermissions := [{ userIdGroupPairs := [{}] }] } } ]

/-- C4: the claim says every Topology Query API function returns without
raising; but `get_sg_connections` reads `pair["groupId"]` with bracket
access, so a well-formed snapshot whose `userIdGroupPairs` entry lacks a
`groupId` key makes it raise `KeyError` - evaluated here at the failing
input. -/
theorem c4_get_sg_connections_raises :
    getSgConnections cexC4 = Except.error "KeyError: groupId" := rfl

/-! ## Claim C9 -/

/-- Every value of the map is one of the three tiers. -/
def TierVals (m : List (String × String)) : Prop :=
  ∀ p ∈ m, isTier p.2 = true

theorem tiervals_nil : TierVals [] := fun _ hp => absurd hp (by simp)

theorem tiervals_dinsert {m : List (String × String)} {k v : String}
    (h : TierVals m) (hv : isTier v = true) : TierVals (dinsert m k v) :=
  fun p hp => (mem_dinsert hp).elim (fun h1 => h p h1) (fun h2 => by rw [h2]; exact hv)

theorem tiervals_stage1 (s : Snapshot) (vpcId : String) : TierVals (stage1 s vpcId) := by
  unfold stage1
  refine foldl_preserve _ TierVals _ [] (fun m it _ hm => ?_) tiervals_nil
  unfold stage1Step
  split_ifs with hc
  · exact hm
  · refine foldl_preserve _ TierVals _ m (fun m' a _ hm' => ?_) hm
    unfold stage1Assoc
    split_ifs with h1 h2
    · exact tiervals_dinsert hm' (isTier_rtTier _)
    · exact tiervals_dinsert hm' (isTier_rtTier _)
    · exact hm'

theorem tiervals_stage2Map (s : Snapshot) (vpcId : String)
    {m1 : List (String × String)} (h : TierVals m1) :
    TierVals (stage2Map s vpcId m1) := by
  unfold stage2Map stage2Rds stage2Alb stage2Nat
  refine foldl_preserve _ TierVals _ _ (fun m it _ hm => ?_)
    (foldl_preserve _ TierVals _ _ (fun m it _ hm => ?_)
      (foldl_preserve _ TierVals _ _ (fun m it _ hm => ?_) h))
  · refine foldl_preserve _ TierVals _ m (fun m' sr _ hm' => ?_) hm
    split_ifs with h1
    · exact tiervals_dinsert hm' rfl
    · exact hm'
  · split_ifs with h1
    · refine foldl_preserve _ TierVals _ m (fun m' az _ hm' => ?_) hm
      split_ifs with h2
      · exact tiervals_dinsert hm' rfl
      · exact hm'
    · exact hm
  · split_ifs with h1
    · exact tiervals_dinsert hm rfl
    · exact hm

theorem tiervals_distManyPub (ec2 : List String) {m : List (String × String)}
    (sids : List String) (h : TierVals m) :
    TierVals (distManyPub ec2 m sids).1 := by
  unfold distManyPub
  split
  · exact tiervals_dinsert h rfl
  · split
    · exact tiervals_dinsert h rfl
    · exact h

theorem tiervals_distManyIso (hasRds : Bool) (ec2 : List String) (sids : List String)
    {st : List (String × String) × List String} (h : TierVals st.1) :
    TierVals (distManyIso hasRds ec2 sids st).1 := by
  unfold distManyIso
  split_ifs with h1
  · split
    · exact tiervals_dinsert h rfl
    · split
      · exact tiervals_dinsert h rfl
      · exact h
  · exact h

theorem tiervals_distMany (hasRds : Bool) (ec2 : List String)
    {m : List (String × String)} (sids : List String) (h : TierVals m) :
    TierVals (distMany hasRds ec2 m sids) := by
  unfold distMany
  refine foldl_preserve _ TierVals _ _ (fun m' z _ hm' => ?_)
    (tiervals_distManyIso hasRds ec2 sids (tiervals_distManyPub ec2 sids h))
  split_ifs with h1
  · exact hm'
  · exact tiervals_dinsert hm' rfl

theorem tiervals_distTwo (hasIgw hasNat : Bool) (ec2 : List String)
    {m : List (String × String)} (x y : String) (h : TierVals m) :
    TierVals (distTwo hasIgw hasNat ec2 m x y) := by
  unfold distTwo
  split_ifs with h1
  · split
    · exact tiervals_dinsert (tiervals_dinsert h rfl) rfl
    · exact tiervals_dinsert (tiervals_dinsert h rfl) rfl
  · exact tiervals_dinsert (tiervals_dinsert h rfl) rfl

theorem tiervals_distAz (hasIgw hasNat hasRds : Bool) (ec2 : List String)
    {m : List (String × String)} (sids : List String) (h : TierVals m) :
    TierVals (distAz hasIgw hasNat hasRds ec2 m sids) := by
  unfold distAz
  split
  · exact tiervals_dinsert h rfl
  · exact tiervals_distTwo hasIgw hasNat ec2 _ _ h
  · exact tiervals_distMany hasRds ec2 _ h

theorem tiervals_stage3Map (s : Snapshot) (vpcId : String)
    {m2 : List (String × String)} (h : TierVals m2) :
    TierVals (stage3Map s vpcId m2) := by
  have hf : TierVals (stage3Fold s vpcId m2) := by
    unfold stage3Fold
    exact foldl_preserve _ TierVals _ m2
      (fun m' p _ hm' => tiervals_distAz _ _ _ _ _ hm') h
  unfold stage3Map
  split_ifs with h1
  · exact tiervals_dinsert hf rfl
  · exact hf

theorem tiervals_buildMap (s : Snapshot) (vpcId : String) :
    TierVals (buildSubnetTierMap s vpcId) := by
  unfold buildSubnetTierMap
  split_ifs with h1 h2 h3
  · exact tiervals_stage1 s vpcId
  · exact tiervals_dinsert (tiervals_stage2Map s vpcId (tiervals_stage1 s vpcId)) rfl
  · exact tiervals_stage2Map s vpcId (tiervals_stage1 s vpcId)
  · exact tiervals_stage3Map s vpcId (tiervals_stage2Map s vpcId (tiervals_stage1 s vpcId))

theorem nameTierOf_cases (n : String) :
    nameTierOf n = "" ∨ isTier (nameTierOf n) = true := by
  unfold nameTierOf
  split_ifs <;> simp [isTier]

theorem isTier_pickTier (tagT mapT nameT : String) (pub : Bool) (dt : String)
    (h0 : tagT = "") (h1 : mapT = "" ∨ isTier mapT = true)
    (h2 : nameT = "" ∨ isTier nameT = true) (h3 : isTier dt = true) :
    isTier (pickTier tagT mapT nameT pub dt) = true := by
  unfold pickTier
  rw [if_neg (by simp [h0])]
  by_cases hm : mapT = ""
  · rw [if_neg (by simp [hm])]
    by_cases hn : nameT = ""
    · rw [if_neg (by simp [hn])]
      by_cases hp : pub = true
      · rw [if_pos hp]
        rfl
      · rw [if_neg hp]
        exact h3
    · rw [if_pos (by simpa using hn)]
      rcases h2 with h2 | h2
      · exact absurd h2 hn
      · exact h2
  · rw [if_pos (by simpa using hm)]
    rcases h1 with h1 | h1
    · exact absurd h1 hm
    · exact h1

/-- C9 amended: every subnet record returned by `get_subnets_for_vpc`
whose item has no explicit Tier tag carries one of the three enumerated
tiers; an explicit Tier tag is passed through verbatim (so the invariant
holds only as far as the tag does). -/
theorem c9_tier_enumeration (s : Snapshot) (vpcId : String) (o : SubnetOut)
    (ho : o ∈ getSubnetsForVpc s vpcId)
    (htag : ∀ it ∈ byType "AWS::EC2::Subnet" s, it.resourceId = o.id →
      dgetD it.tags "Tier" "" = "") :
    isTier o.tier = true := by
  rcases mem_getSubnets ho with ⟨it0, hit0, hout⟩
  rcases subnetOut_some hout with ⟨hoid, hotier⟩
  rw [hotier]
  refine isTier_pickTier _ _ _ _ _ (htag it0 hit0 hoid.symm) ?_ ?_ ?_
  · unfold dgetD
    cases hg : dget? (buildSubnetTierMap s vpcId) it0.resourceId with
    | none => exact Or.inl rfl
    | some v =>
      exact Or.inr (tiervals_buildMap s vpcId (it0.resourceId, v) (dmem_of_dget? hg))
  · exact nameTierOf_cases _
  · unfold dgetD
    cases hg : dget? (buildSubnetTierMap s vpcId) "_main" with
    | none => rfl
    | some v =>
      exact tiervals_buildMap s vpcId ("_main", v) (dmem_of_dget? hg)

/-- Subnet with an arbitrary explicit Tier tag. -/
def cexC9 : Snapshot :=
  [ { resourceType := "AWS::EC2::Subnet", resourceId := "sub-1",
      configuration := { vpcId := "vpc-1" }, tags := [("Tier", "Restricted")] } ]

/-- C9 counterexample: the Tier tag is passed through verbatim, so the
returned tier is not one of `Public | Private | Isolated`. -/
theorem c9_counterexample :
    (getSubnetsForVpc cexC9 "vpc-1").map (fun o => o.tier) = ["Restricted"] ∧
    isTier "Restricted" = false :=
  ⟨by decide, by decide⟩

/-- Subnet with no tags at all, for the C9 witness. -/
def witC9Sub : Item :=
  { resourceType := "AWS::EC2::Subnet", resourceId := "sub-1",
    configuration := { vpcId := "vpc-1" } }

def witC9 : Snapshot := [witC9Sub]

/-- The record `get_subnets_for_vpc` returns for `witC9Sub`. -/
def witC9Out : SubnetOut :=
  { id := "sub-1", name := "sub-1", cidr := "", az := "", tier := "Private" }

/-- Witness for the amended C9 theorem at a concrete snapshot. -/
theorem c9_witness : isTier witC9Out.tier = true :=
  c9_tier_enumeration witC9 "vpc-1" witC9Out (by decide) (by decide)

/-! ## Claim C8 -/

theorem distManyPub_keep (ec2 : List String) (m : List (String × String))
    (sids : List String) (k : String) (hk : k ∉ sids) :
    dget? (distManyPub ec2 m sids).1 k = dget? m k := by
  unfold distManyPub
  split
  · rename_i a l heq
    have ha : a ∈ sids := by
      have hmf : a ∈ sids.filter (fun z => !ec2.contains z) := by
        rw [heq]
        exact List.mem_cons_self a l
      exact (List.mem_filter.mp hmf).1
    exact dget?_dinsert_ne m a k "Public" (fun e => hk (by rw [e]; exact ha))
  · split
    · rename_i hd tl hfe
      exact dget?_dinsert_ne m hd k "Public"
        (fun e => hk (by rw [e]; exact List.mem_cons_self hd tl))
    · rfl

theorem distManyIso_keep (hasRds : Bool) (ec2 : List String) (sids : List String)
    (st : List (String × String) × List String) (k : String) (hk : k ∉ sids) :
    dget? (distManyIso hasRds ec2 sids st).1 k = dget? st.1 k := by
  unfold distManyIso
  split_ifs with h1
  · split
    · rename_i a heq
      have ha : a ∈ sids := by
        have hmem := List.mem_of_find?_eq_some heq
        exact (List.mem_filter.mp hmem).1
      exact dget?_dinsert_ne st.1 a k "Isolated" (fun e => hk (by rw [e]; exact ha))
    · split
      · rename_i a heq2
        have ha : a ∈ sids := by
          have hmem := List.mem_of_find?_eq_some heq2
          exact List.mem_reverse.mp hmem
        exact dget?_dinsert_ne st.1 a k "Isolated" (fun e => hk (by rw [e]; exact ha))
      · rfl
  · rfl

theorem distMany_keep (hasRds : Bool) (ec2 : List String)
    (m : List (String × String)) (sids : List String) (k : String)
    (hk : k ∉ sids) :
    dget? (distMany hasRds ec2 m sids) k = dget? m k := by
  unfold distMany
  have hstep : ∀ z ∈ sids, ∀ m',
      dget? (if (distManyIso hasRds ec2 sids (distManyPub ec2 m sids)).2.contains z
        then m' else dinsert m' z "Private") k = dget? m' k := by
    intro z hz m'
    split_ifs with hcz
    · rfl
    · exact dget?_dinsert_ne m' z k "Private" (fun e => hk (by rw [e]; exact hz))
  rw [foldl_keep _ k sids _ hstep]
  rw [distManyIso_keep hasRds ec2 sids _ k hk, distManyPub_keep ec2 m sids k hk]

theorem distAz_keep (hasIgw hasNat hasRds : Bool) (ec2 : List String)
    (m : List (String × String)) (sids : List String) (k : String)
    (hk : k ∉ sids) :
    dget? (distAz hasIgw hasNat hasRds ec2 m sids) k = dget? m k := by
  unfold distAz
  split
  · rename_i x
    exact dget?_dinsert_ne m x k "Private"
      (fun e => hk (by rw [e]; exact List.mem_cons_self x []))
  · rename_i x y
    have hx : k ≠ x := fun e => hk (by rw [e]; exact List.mem_cons_self x [y])
    have hy : k ≠ y := fun e =>
      hk (by rw [e]; exact List.mem_cons_of_mem x (List.mem_cons_self y []))
    unfold distTwo
    split_ifs with h1
    · split
      · rename_i a _ b _ heqa heqb
        have ha : k ≠ a := by
          have hma : a ∈ [x, y] := by
            have hmf : a ∈ [x, y].filter (fun z => !ec2.contains z) := by
              rw [heqa]
              exact List.mem_cons_self a _
            exact (List.mem_filter.mp hmf).1
          intro e
          rcases List.mem_cons.mp hma with h' | h'
          · exact hx (e.trans h')
          · exact hy (e.trans (List.mem_singleton.mp h'))
        have hbn : k ≠ b := by
          have hmb : b ∈ [x, y] := by
            have hmf : b ∈ [x, y].filter (fun z => ec2.contains z) := by
              rw [heqb]
              exact List.mem_cons_self b _
            exact (List.mem_filter.mp hmf).1
          intro e
          rcases List.mem_cons.mp hmb with h' | h'
          · exact hx (e.trans h')
          · exact hy (e.trans (List.mem_singleton.mp h'))
        rw [dget?_dinsert_ne _ b k "Private" hbn,
          dget?_dinsert_ne m a k "Public" ha]
      · rw [dget?_dinsert_ne _ y k "Private" hy,
          dget?_dinsert_ne m x k "Public" hx]
    · rw [dget?_dinsert_ne _ y k "Private" hy,
        dget?_dinsert_ne m x k "Public" hx]
  · exact distMany_keep hasRds ec2 m _ k hk

theorem distAz_two (hasIgw hasNat hasRds : Bool) (ec2 : List String) (s1 s2 : String)
    (hgw : (hasIgw || hasNat) = true)
    (he1 : ec2.contains s1 = true) (he2 : ec2.contains s2 = false) :
    ∀ m, dget? (distAz hasIgw hasNat hasRds ec2 m [s1, s2]) s1 = some "Private" ∧
         dget? (distAz hasIgw hasNat hasRds ec2 m [s1, s2]) s2 = some "Public" := by
  intro m
  have hs12 : s1 ≠ s2 := fun e => by rw [e, he2] at he1; cases he1
  have hfa : [s1, s2].filter (fun z => !ec2.contains z) = [s2] := by
    simp only [List.filter_cons, List.filter_nil, he1, he2]
    simp
  have hfb : [s1, s2].filter (fun z => ec2.contains z) = [s1] := by
    simp only [List.filter_cons, List.filter_nil, he1, he2]
    simp
  have hred : distAz hasIgw hasNat hasRds ec2 m [s1, s2] =
      dinsert (dinsert m s2 "Public") s1 "Private" := by
    show distTwo hasIgw hasNat ec2 m s1 s2 = _
    unfold distTwo
    rw [if_pos hgw, hfa, hfb]
  rw [hred]
  constructor
  · exact dget?_dinsert_self _ s1 "Private"
  · rw [dget?_dinsert_ne _ s1 s2 "Private" hs12.symm]
    exact dget?_dinsert_self m s2 "Public"

/-- Same split when the bucket enumerates the non-compute subnet first:
`sids[0] = s2` lands in the non-EC2 filter and `s1` in the EC2 filter, so
the resulting map is identical. -/
theorem distAz_two_swap (hasIgw hasNat hasRds : Bool) (ec2 : List String) (s1 s2 : String)
    (hgw : (hasIgw || hasNat) = true)
    (he1 : ec2.contains s1 = true) (he2 : ec2.contains s2 = false) :
    ∀ m, dget? (distAz hasIgw hasNat hasRds ec2 m [s2, s1]) s1 = some "Private" ∧
         dget? (distAz hasIgw hasNat hasRds ec2 m [s2, s1]) s2 = some "Public" := by
  intro m
  have hs12 : s1 ≠ s2 := fun e => by rw [e, he2] at he1; cases he1
  have hfa : [s2, s1].filter (fun z => !ec2.contains z) = [s2] := by
    simp only [List.filter_cons, List.filter_nil, he1, he2]
    simp
  have hfb : [s2, s1].filter (fun z => ec2.contains z) = [s1] := by
    simp only [List.filter_cons, List.filter_nil, he1, he2]
    simp
  have hred : distAz hasIgw hasNat hasRds ec2 m [s2, s1] =
      dinsert (dinsert m s2 "Public") s1 "Private" := by
    show distTwo hasIgw hasNat ec2 m s2 s1 = _
    unfold distTwo
    rw [if_pos hgw, hfa, hfb]
  rw [hred]
  constructor
  · exact dget?_dinsert_self _ s1 "Private"
  · rw [dget?_dinsert_ne _ s1 s2 "Private" hs12.symm]
    exact dget?_dinsert_self m s2 "Public"

theorem buildMap_stage3 (s : Snapshot) (vpcId : String)
    (h1 : (stage1 s vpcId).any (fun p => p.1 != "_main") = false)
    (h2 : (stage2Map s vpcId (stage1 s vpcId)).any (fun p => p.1 != "_main") = false) :
    buildSubnetTierMap s vpcId =
      stage3Map s vpcId (stage2Map s vpcId (stage1 s vpcId)) := by
  unfold buildSubnetTierMap
  rw [if_neg (by simp [h1]), if_neg (by simp [h2])]

theorem dget?_none_of_all_main (m : List (String × String))
    (h : m.any (fun p => p.1 != "_main") = false) (k : String) (hk : k ≠ "_main") :
    dget? m k = none := by
  cases hg : dget? m k with
  | none => rfl
  | some v =>
    have hmem : (k, v) ∈ m := dmem_of_dget? hg
    have hno : ¬ (m.any (fun p => p.1 != "_main") = true) := by rw [h]; simp
    exact absurd (List.any_eq_true.mpr ⟨(k, v), hmem, by simpa using hk⟩) hno

/-- C8 amended: in the structural last-resort stage, an availability zone
with exactly two subnets of the network, one hosting a compute instance
and one not, is split with the non-compute subnet labeled `Public` and the
compute subnet `Private`, whichever of the two the bucket enumerates
first - but only when the snapshot contains at least one Internet Gateway
or NAT Gateway item; with neither present the split is by enumeration
order regardless of compute placement. -/
theorem c8_two_subnet_split (s : Snapshot) (vpcId az s1 s2 : String)
    (h1 : (stage1 s vpcId).any (fun p => p.1 != "_main") = false)
    (h2 : (stage2Map s vpcId (stage1 s vpcId)).any (fun p => p.1 != "_main") = false)
    (hgw : ((!(byType "AWS::EC2::InternetGateway" s).isEmpty) ||
            (!(byType "AWS::EC2::NatGateway" s).isEmpty)) = true)
    (hb : (az, [s1, s2]) ∈ azGroup s vpcId ∨ (az, [s2, s1]) ∈ azGroup s vpcId)
    (he1 : (ec2Subnets s vpcId).contains s1 = true)
    (he2 : (ec2Subnets s vpcId).contains s2 = false)
    (hother : ∀ p ∈ azGroup s vpcId,
      p.2 ≠ [s1, s2] → p.2 ≠ [s2, s1] → s1 ∉ p.2 ∧ s2 ∉ p.2)
    (hm1 : s1 ≠ "_main") (hm2 : s2 ≠ "_main") :
    dget? (buildSubnetTierMap s vpcId) s1 = some "Private" ∧
    dget? (buildSubnetTierMap s vpcId) s2 = some "Public" := by
  have hw := distAz_two (!(byType "AWS::EC2::InternetGateway" s).isEmpty)
    (!(byType "AWS::EC2::NatGateway" s).isEmpty)
    (!(byType "AWS::RDS::DBInstance" s).isEmpty)
    (ec2Subnets s vpcId) s1 s2 hgw he1 he2
  have hw2 := distAz_two_swap (!(byType "AWS::EC2::InternetGateway" s).isEmpty)
    (!(byType "AWS::EC2::NatGateway" s).isEmpty)
    (!(byType "AWS::RDS::DBInstance" s).isEmpty)
    (ec2Subnets s vpcId) s1 s2 hgw he1 he2
  have hwriter1 : ∃ p ∈ azGroup s vpcId, ∀ m,
      dget? (distAz (!(byType "AWS::EC2::InternetGateway" s).isEmpty)
        (!(byType "AWS::EC2::NatGateway" s).isEmpty)
        (!(byType "AWS::RDS::DBInstance" s).isEmpty)
        (ec2Subnets s vpcId) m p.2) s1 = some "Private" := by
    rcases hb with hb | hb
    · exact ⟨(az, [s1, s2]), hb, fun m => (hw m).1⟩
    · exact ⟨(az, [s2, s1]), hb, fun m => (hw2 m).1⟩
  have hwriter2 : ∃ p ∈ azGroup s vpcId, ∀ m,
      dget? (distAz (!(byType "AWS::EC2::InternetGateway" s).isEmpty)
        (!(byType "AWS::EC2::NatGateway" s).isEmpty)
        (!(byType "AWS::RDS::DBInstance" s).isEmpty)
        (ec2Subnets s vpcId) m p.2) s2 = some "Public" := by
    rcases hb with hb | hb
    · exact ⟨(az, [s1, s2]), hb, fun m => (hw m).2⟩
    · exact ⟨(az, [s2, s1]), hb, fun m => (hw2 m).2⟩
  have hf1 : dget? (stage3Fold s vpcId (stage2Map s vpcId (stage1 s vpcId))) s1 =
      some "Private" := by
    unfold stage3Fold
    refine foldl_write _ s1 "Private" _ _ (fun p hp => ?_) hwriter1
    by_cases hps : p.2 = [s1, s2]
    · rw [hps]
      exact Or.inr (fun m => (hw m).1)
    · by_cases hps' : p.2 = [s2, s1]
      · rw [hps']
        exact Or.inr (fun m => (hw2 m).1)
      · exact Or.inl (fun m =>
          distAz_keep _ _ _ _ m p.2 s1 (hother p hp hps hps').1)
  have hf2 : dget? (stage3Fold s vpcId (stage2Map s vpcId (stage1 s vpcId))) s2 =
      some "Public" := by
    unfold stage3Fold
    refine foldl_write _ s2 "Public" _ _ (fun p hp => ?_) hwriter2
    by_cases hps : p.2 = [s1, s2]
    · rw [hps]
      exact Or.inr (fun m => (hw m).2)
    · by_cases hps' : p.2 = [s2, s1]
      · rw [hps']
        exact Or.inr (fun m => (hw2 m).2)
      · exact Or.inl (fun m =>
          distAz_keep _ _ _ _ m p.2 s2 (hother p hp hps hps').2)
  have hmap := buildMap_stage3 s vpcId h1 h2
  rw [hmap]
  unfold stage3Map
  split_ifs with hmn
  · rw [dget?_dinsert_ne _ "_main" s1 "Private" hm1,
      dget?_dinsert_ne _ "_main" s2 "Private" hm2]
    exact ⟨hf1, hf2⟩
  · exact ⟨hf1, hf2⟩

/-- Subnet with an attached compute instance (enumerated first). -/
def c8SubA : Item :=
  { resourceType := "AWS::EC2::Subnet", resourceId := "sub-a",
    configuration := { vpcId := "vpc-1", availabilityZone := "az-1" } }

/-- Subnet without compute (enumerated second). -/
def c8SubB : Item :=
  { resourceType := "AWS::EC2::Subnet", resourceId := "sub-b",
    configuration := { vpcId := "vpc-1", availabilityZone := "az-1" } }

/-- Instance attached to `sub-a`. -/
def c8Inst : Item :=
  { resourceType := "AWS::EC2::Instance", resourceId := "i-1",
    configuration := { subnetId := "sub-a" } }

def cexC8 : Snapshot := [c8SubA, c8SubB, c8Inst]

/-- C8 counterexample: no route tables and no service evidence, two
subnets in one availability zone, `sub-a` hosts the compute instance and
`sub-b` does not - yet with no Internet Gateway or NAT Gateway anywhere in
the snapshot the code splits by enumeration order, labeling the compute
subnet `sub-a` Public and `sub-b` Private, opposite to the claim. -/
theorem c8_counterexample :
    azGroup cexC8 "vpc-1" = [("az-1", ["sub-a", "sub-b"])] ∧
    ec2Subnets cexC8 "vpc-1" = ["sub-a"] ∧
    stage1 cexC8 "vpc-1" = [] ∧
    dget? (buildSubnetTierMap cexC8 "vpc-1") "sub-a" = some "Public" ∧
    dget? (buildSubnetTierMap cexC8 "vpc-1") "sub-b" = some "Private" :=
  ⟨by decide, by decide, by decide, by decide, by decide⟩

/-- Internet gateway item whose presence enables the compute preference. -/
def c8Igw : Item :=
  { resourceType := "AWS::EC2::InternetGateway", resourceId := "igw-1" }

def witC8 : Snapshot := [c8SubA, c8SubB, c8Inst, c8Igw]

/-- Witness for the amended C8 theorem at a concrete snapshot. -/
theorem c8_witness :
    dget? (buildSubnetTierMap witC8 "vpc-1") "sub-a" = some "Private" ∧
    dget? (buildSubnetTierMap witC8 "vpc-1") "sub-b" = some "Public" :=
  c8_two_subnet_split witC8 "vpc-1" "az-1" "sub-a" "sub-b" (by decide) (by decide)
    (by decide) (Or.inl (by decide)) (by decide) (by decide) (by decide)
    (by decide) (by decide)
